import Mathlib

/-!
Verification of the auxtools debug server (`debug_server/src/server.rs`).

The development shallowly embeds the session-protocol engine: the variable
reference interning table (`State`), the frame/stack resolver, the breakpoint
line/offset scans, the response handlers, and the teardown state machine.
External collaborators (the BYOND VM's value model, the disassembler, the
instruction patch facility, the clap command parser) are modelled as an
explicit environment `Env`, exactly as the spec scopes them: the server code
only touches them through these interfaces.

Machine integers are modelled as `Nat`/`Int`; the one place where two's
complement wrap-around matters (`State::get_variables` subtracting 1 from a
cast handle) uses an explicit `% 2 ^ 64`.  Rust panics (`unwrap`,
`unreachable!`, out-of-range slicing) are modelled by `Option`/`none`.
-/

set_option autoImplicit false

namespace AuxDbg

/-- A raw BYOND value: a one-byte type tag plus a 32-bit data/id payload
(`raw_types::values::Value`). -/
structure Value where
  tag : Nat
  data : Nat
  deriving DecidableEq

/-- Modelled from the spec: the host VM's tag numbering for the world
singleton (`ValueTag::World`), the synthetic global-vars pseudo-object
(`ValueTag::GlobalVars`) and null (`ValueTag::Null`); the numeric values
live in the external `raw_types` module, only distinctness matters here. -/
def ValueTag.World : Nat := 14

/-- Modelled from the spec: the tag of the synthetic global-fields
pseudo-object substituted for the world singleton. -/
def ValueTag.GlobalVars : Nat := 75

/-- Modelled from the spec: the tag of the null value. -/
def ValueTag.Null : Nat := 0

/-- A runtime error raised by VM introspection (`auxtools::Runtime`). -/
structure Runtime where
  message : String
  deriving DecidableEq

/-- The internal variable-query kinds interned by the variable reference
table (enum `Variables` in `server.rs`). -/
inductive Variables
  | Arguments (frame : Nat)
  | Locals (frame : Nat)
  | ObjectVars (tag : Nat) (data : Nat)
  | ListContents (tag : Nat) (data : Nat)
  | ListPair (key_tag : Nat) (key_data : Nat) (value_tag : Nat) (value_data : Nat)
  | Internals (frame : Nat)
  | Stack (frame : Nat)
  deriving DecidableEq

/-- A proc resolved by `Proc::find_override`: its path, override id and a
unique id keying the external patcher's per-proc trap set. -/
structure Proc where
  path : String
  override_id : Nat
  id : Nat
  deriving DecidableEq

/-- One invocation record of the VM call-stack snapshot
(`debug::StackFrame`). -/
structure StackFrame where
  proc : Proc
  offset : Nat
  src : Value
  usr : Value
  dot : Value
  cache : Value
  args : List (Option String × Value)
  locals : List (String × Value)
  stack : List Value
  deriving DecidableEq

/-- The VM call-stack snapshot taken at pause time (`debug::CallStacks`):
one active stack plus the suspended stacks in order. -/
structure CallStacks where
  active : List StackFrame
  suspended : List (List StackFrame)
  deriving DecidableEq

/-- The per-pause session state: the stack snapshot plus the two sides of the
variable reference table (struct `State` in `server.rs`).  The `HashMap`
`variables_to_refs` is modelled as an association list looked up with
structural equality. -/
structure State where
  snapshot : CallStacks
  vars : List Variables
  variables_to_refs : List (Variables × Int)
  deriving DecidableEq

/-- `State::new`: a fresh session with empty interning tables.  (The snapshot
field is called `stacks` in the source; that name is reserved here.) -/
def State.new (cs : CallStacks) : State :=
  ⟨cs, [], []⟩

/-- Lookup in the `variables_to_refs` map, by structural equality of the
query kind. -/
def lookupRef : List (Variables × Int) → Variables → Option Int
  | [], _ => none
  | p :: ps, k => if p.1 = k then some p.2 else lookupRef ps k

/-- `State::get_ref`: return the existing handle for an interned kind, or
allocate `variables.len() + 1`, record both directions, and return it. -/
def State.get_ref (s : State) (vars : Variables) : Int × State :=
  match lookupRef s.variables_to_refs vars with
  | some r => (r, s)
  | none =>
    let reference : Int := (s.vars.length : Int) + 1
    (reference,
      { s with
          vars := s.vars ++ [vars],
          variables_to_refs := (vars, reference) :: s.variables_to_refs })

/-- Index of the first occurrence of a kind in the `variables` vector. -/
def firstIdx (k : Variables) : List Variables → Option Nat
  | [] => none
  | v :: vs => if v = k then some 0 else (firstIdx k vs).map (· + 1)

/-- Consistency of the two sides of the variable reference table: the map
assigns every kind exactly the handle derived from its position of first
interning in the vector (position + 1), and unmapped kinds are absent. -/
def WF (s : State) : Prop :=
  ∀ k, lookupRef s.variables_to_refs k = (firstIdx k s.vars).map (fun i => (i : Int) + 1)

theorem WF_new (cs : CallStacks) : WF (State.new cs) := by
  intro k
  rfl

theorem firstIdx_append_of_not_mem {k : Variables} {l : List Variables} (h : k ∉ l)
    (l' : List Variables) : firstIdx k (l ++ l') = (firstIdx k l').map (· + l.length) := by
  induction l with
  | nil => simp [firstIdx]
  | cons v vs ih =>
    have hne : v ≠ k := fun hv => h (hv ▸ List.mem_cons_self v vs)
    have hk : k ∉ vs := fun hv => h (List.mem_cons_of_mem v hv)
    rw [List.cons_append]
    simp only [firstIdx]
    rw [if_neg hne, ih hk]
    cases firstIdx k l' with
    | none => rfl
    | some i =>
      show some (i + vs.length + 1) = some (i + (v :: vs).length)
      rw [List.length_cons, Nat.add_assoc]

theorem firstIdx_none_iff {k : Variables} {l : List Variables} :
    firstIdx k l = none ↔ k ∉ l := by
  induction l with
  | nil => simp [firstIdx]
  | cons v vs ih =>
    by_cases hv : v = k
    · subst hv
      simp [firstIdx]
    · simp only [firstIdx, if_neg hv, List.mem_cons, Option.map_eq_none', ih]
      constructor
      · intro h hx
        rcases hx with h1 | h2
        · exact hv h1.symm
        · exact h h2
      · intro h h2
        exact h (Or.inr h2)

theorem firstIdx_append (k : Variables) (l l' : List Variables) :
    firstIdx k (l ++ l') =
      match firstIdx k l with
      | some i => some i
      | none => (firstIdx k l').map (· + l.length) := by
  induction l with
  | nil => simp [firstIdx]
  | cons v vs ih =>
    by_cases hv : v = k
    · simp [firstIdx, hv]
    · rw [List.cons_append]
      simp only [firstIdx, if_neg hv, ih]
      cases firstIdx k vs with
      | some i => rfl
      | none =>
        cases firstIdx k l' with
        | none => rfl
        | some i =>
          show some (i + vs.length + 1) = some (i + (v :: vs).length)
          rw [List.length_cons, Nat.add_assoc]

theorem firstIdx_get? {k : Variables} {l : List Variables} {i : Nat}
    (h : firstIdx k l = some i) : l.get? i = some k := by
  induction l generalizing i with
  | nil => simp [firstIdx] at h
  | cons v vs ih =>
    by_cases hv : v = k
    · simp only [firstIdx, if_pos hv] at h
      cases h
      simpa using hv
    · simp only [firstIdx, if_neg hv] at h
      cases hf : firstIdx k vs with
      | none => rw [hf] at h; cases h
      | some j =>
        rw [hf] at h
        cases h
        simpa using ih hf

theorem firstIdx_lt_length {k : Variables} {l : List Variables} {i : Nat}
    (h : firstIdx k l = some i) : i < l.length :=
  List.get?_eq_some.mp (firstIdx_get? h) |>.1

theorem WF_get_ref {s : State} (hWF : WF s) (k : Variables) : WF (s.get_ref k).2 := by
  unfold State.get_ref
  rw [hWF k]
  cases hf : firstIdx k s.vars with
  | some i => exact hWF
  | none =>
    have hk : k ∉ s.vars := firstIdx_none_iff.mp hf
    intro k'
    show lookupRef ((k, (s.vars.length : Int) + 1) :: s.variables_to_refs) k'
        = (firstIdx k' (s.vars ++ [k])).map (fun i => (i : Int) + 1)
    rw [firstIdx_append]
    by_cases hk' : k = k'
    · subst hk'
      rw [hf]
      simp [lookupRef, firstIdx]
    · show (if k = k' then some ((s.vars.length : Int) + 1)
          else lookupRef s.variables_to_refs k') = _
      rw [if_neg hk', hWF k']
      cases hf' : firstIdx k' s.vars with
      | some i => rfl
      | none =>
        have : firstIdx k' [k] = none := by simp [firstIdx, hk']
        simp [this]

theorem get_ref_handle {s : State} (hWF : WF s) (k : Variables) :
    (s.get_ref k).1 = match firstIdx k s.vars with
      | some i => (i : Int) + 1
      | none => (s.vars.length : Int) + 1 := by
  unfold State.get_ref
  rw [hWF k]
  cases firstIdx k s.vars <;> rfl

theorem get_ref_fst_of_firstIdx {s : State} (hWF : WF s) {k : Variables} {i : Nat}
    (hf : firstIdx k s.vars = some i) : (s.get_ref k).1 = (i : Int) + 1 := by
  rw [get_ref_handle hWF k, hf]

theorem get_ref_fst_of_none {s : State} (hWF : WF s) {k : Variables}
    (hf : firstIdx k s.vars = none) : (s.get_ref k).1 = (s.vars.length : Int) + 1 := by
  rw [get_ref_handle hWF k, hf]

theorem get_ref_snd_of_firstIdx {s : State} (hWF : WF s) {k : Variables} {i : Nat}
    (hf : firstIdx k s.vars = some i) : (s.get_ref k).2 = s := by
  unfold State.get_ref
  rw [hWF k, hf]
  rfl

theorem get_ref_snd_vars_of_none {s : State} (hWF : WF s) {k : Variables}
    (hf : firstIdx k s.vars = none) : (s.get_ref k).2.vars = s.vars ++ [k] := by
  unfold State.get_ref
  rw [hWF k, hf]
  rfl

/-- C1: variable-reference interning is idempotent and monotonic within one
session.  On any consistent session state (`WF`, which holds for the fresh
state of `State::new` and is preserved by every `get_ref` call): repeating
`get_ref` with a structurally equal kind returns the same handle; a second
call with an unequal kind returns a different handle; the handle of a kind is
its position of first interning plus one, so handles are allocated
consecutively starting at 1 (a kind never seen before receives
`variables.len() + 1`, and the fresh session starts with an empty vector). -/
theorem C1_get_ref_interning (cs : CallStacks) (s : State) (hWF : WF s) (k k' : Variables) :
    ((s.get_ref k).2.get_ref k).1 = (s.get_ref k).1
    ∧ (k ≠ k' → ((s.get_ref k).2.get_ref k').1 ≠ (s.get_ref k).1)
    ∧ (∀ i : Nat, firstIdx k s.vars = some i → (s.get_ref k).1 = (i : Int) + 1)
    ∧ (k ∉ s.vars → (s.get_ref k).1 = (s.vars.length : Int) + 1)
    ∧ WF (s.get_ref k).2
    ∧ (State.new cs).vars = [] := by
  have hWF1 : WF (s.get_ref k).2 := WF_get_ref hWF k
  refine ⟨?_, ?_, ?_, ?_, hWF1, rfl⟩
  · cases hf : firstIdx k s.vars with
    | some i =>
      rw [get_ref_snd_of_firstIdx hWF hf]
    | none =>
      have hv1 : (s.get_ref k).2.vars = s.vars ++ [k] := get_ref_snd_vars_of_none hWF hf
      have hf1 : firstIdx k (s.get_ref k).2.vars = some s.vars.length := by
        rw [hv1, firstIdx_append, hf]
        simp [firstIdx]
      rw [get_ref_fst_of_firstIdx hWF1 hf1, get_ref_fst_of_none hWF hf]
  · intro hne
    cases hf : firstIdx k s.vars with
    | some i =>
      rw [get_ref_snd_of_firstIdx hWF hf, get_ref_fst_of_firstIdx hWF hf]
      cases hf' : firstIdx k' s.vars with
      | some i' =>
        rw [get_ref_fst_of_firstIdx hWF hf']
        have hii : i ≠ i' := by
          intro h
          apply hne
          apply Option.some_injective
          rw [← firstIdx_get? hf, h, firstIdx_get? hf']
        intro h
        apply hii
        omega
      | none =>
        rw [get_ref_fst_of_none hWF hf']
        have hi : i < s.vars.length := firstIdx_lt_length hf
        intro h
        omega
    | none =>
      rw [get_ref_fst_of_none hWF hf]
      have hv1 : (s.get_ref k).2.vars = s.vars ++ [k] := get_ref_snd_vars_of_none hWF hf
      cases hf' : firstIdx k' s.vars with
      | some i' =>
        have hf1 : firstIdx k' (s.get_ref k).2.vars = some i' := by
          rw [hv1, firstIdx_append, hf']
        rw [get_ref_fst_of_firstIdx hWF1 hf1]
        have hi : i' < s.vars.length := firstIdx_lt_length hf'
        intro h
        omega
      | none =>
        have hf1 : firstIdx k' (s.get_ref k).2.vars = none := by
          rw [hv1, firstIdx_append, hf']
          simp [firstIdx]
          intro h
          exact hne h
        rw [get_ref_fst_of_none hWF1 hf1, hv1]
        simp only [List.length_append, List.length_singleton]
        intro h
        omega
  · intro i hf
    exact get_ref_fst_of_firstIdx hWF hf
  · intro hk
    exact get_ref_fst_of_none hWF (firstIdx_none_iff.mpr hk)

/-- An empty call-stack snapshot used for concrete instantiations. -/
def cs0 : CallStacks := ⟨[], []⟩

/-- Witness for C1: on a fresh session, interning `Arguments 0` twice returns
the same handle, and interning `Locals 0` afterwards returns a different
one. -/
theorem C1_get_ref_interning_witness :
    (((State.new cs0).get_ref (.Arguments 0)).2.get_ref (.Arguments 0)).1
        = ((State.new cs0).get_ref (.Arguments 0)).1
    ∧ (((State.new cs0).get_ref (.Arguments 0)).2.get_ref (.Locals 0)).1
        ≠ ((State.new cs0).get_ref (.Arguments 0)).1 := by
  have h := C1_get_ref_interning cs0 (State.new cs0) (WF_new cs0) (.Arguments 0) (.Locals 0)
  exact ⟨h.1, h.2.1 (by decide)⟩

/-- `Server::get_stack`: `0` selects the active stack, `n ≥ 1` the `n`-th
suspended stack (1-based), or `none` when out of range. -/
def get_stack (cs : CallStacks) (stack_id : Nat) : Option (List StackFrame) :=
  if stack_id = 0 then some cs.active
  else cs.suspended.get? (stack_id - 1)

/-- `Server::get_stack_base_frame_id`: `0` for the active stack, otherwise
the active stack's length plus the lengths of the suspended stacks preceding
the target one.  The source slices `suspended[..stack_id - 1]`, which panics
(modelled `none`) when the bound exceeds the suspended count. -/
def get_stack_base_frame_id (cs : CallStacks) (stack_id : Nat) : Option Nat :=
  if stack_id = 0 then some 0
  else if stack_id - 1 ≤ cs.suspended.length then
    some ((cs.suspended.take (stack_id - 1)).foldl (fun acc fr => acc + fr.length)
      cs.active.length)
  else none

/-- The walk over the suspended stacks in `Server::get_stack_frame`,
subtracting each stack's length from the remaining index. -/
def frames_walk : Nat → List (List StackFrame) → Option StackFrame
  | _, [] => none
  | i, fr :: rest => if i < fr.length then fr.get? i else frames_walk (i - fr.length) rest

/-- `Server::get_stack_frame`: resolve a global frame id, walking the active
stack first and then each suspended stack in order. -/
def get_stack_frame (cs : CallStacks) (frame_index : Nat) : Option StackFrame :=
  if frame_index < cs.active.length then cs.active.get? frame_index
  else frames_walk (frame_index - cs.active.length) cs.suspended

theorem foldl_add_length (l : List (List StackFrame)) (a : Nat) :
    l.foldl (fun acc fr => acc + fr.length) a = a + (l.map List.length).sum := by
  induction l generalizing a with
  | nil => simp
  | cons fr rest ih =>
    simp only [List.foldl_cons, List.map_cons, List.sum_cons, ih]
    omega

theorem frames_walk_at (susp : List (List StackFrame)) (m l : Nat)
    (stack : List StackFrame) (hm : susp.get? m = some stack) (hl : l < stack.length) :
    frames_walk (((susp.take m).map List.length).sum + l) susp = stack.get? l := by
  induction susp generalizing m with
  | nil => cases hm
  | cons fr rest ih =>
    cases m with
    | zero =>
      have hfr : fr = stack := by simpa using hm
      subst hfr
      simp only [List.take_zero, List.map_nil, List.sum_nil, Nat.zero_add, frames_walk]
      rw [if_pos hl]
    | succ m' =>
      simp only [List.get?_cons_succ] at hm
      simp only [List.take_succ_cons, List.map_cons, List.sum_cons, frames_walk]
      rw [if_neg (by omega)]
      rw [show fr.length + ((rest.take m').map List.length).sum + l - fr.length
          = ((rest.take m').map List.length).sum + l by omega]
      exact ih m' hm

theorem frames_walk_none (l : List (List StackFrame)) (i : Nat)
    (h : (l.map List.length).sum ≤ i) : frames_walk i l = none := by
  induction l generalizing i with
  | nil => rfl
  | cons fr rest ih =>
    simp only [List.map_cons, List.sum_cons] at h
    simp only [frames_walk]
    rw [if_neg (by omega)]
    exact ih _ (by omega)

/-- C2: global frame flattening is the deterministic prefix-sum addressing.
The active stack has base 0; suspended stack `n ≥ 1` (when it exists) has
base `active.len + Σ lengths of the preceding suspended stacks`;
`get_stack_frame (base + l)` for a local index `l` inside stack `n` returns
exactly that stack's `l`-th frame; and any global id at or past the total
frame count resolves to `none`. -/
theorem C2_stack_flattening (cs : CallStacks) :
    get_stack_base_frame_id cs 0 = some 0
    ∧ (∀ n, 1 ≤ n → n ≤ cs.suspended.length →
        get_stack_base_frame_id cs n
          = some (cs.active.length + ((cs.suspended.take (n - 1)).map List.length).sum))
    ∧ (∀ n stack base l, get_stack cs n = some stack →
        get_stack_base_frame_id cs n = some base → l < stack.length →
        get_stack_frame cs (base + l) = stack.get? l)
    ∧ (∀ g, cs.active.length + (cs.suspended.map List.length).sum ≤ g →
        get_stack_frame cs g = none) := by
  refine ⟨rfl, ?_, ?_, ?_⟩
  · intro n h1 h2
    unfold get_stack_base_frame_id
    rw [if_neg (by omega), if_pos (by omega), foldl_add_length]
  · intro n stack base l hs hb hl
    by_cases hn : n = 0
    · subst hn
      have hs' : cs.active = stack := by
        have hx : get_stack cs 0 = some cs.active := rfl
        rw [hx] at hs
        exact Option.some_inj.mp hs
      have hb' : base = 0 := by
        have hx : get_stack_base_frame_id cs 0 = some 0 := rfl
        rw [hx] at hb
        exact (Option.some_inj.mp hb).symm
      subst hb'
      rw [Nat.zero_add]
      unfold get_stack_frame
      rw [if_pos (by rw [hs']; exact hl), hs']
    · simp only [get_stack, if_neg hn] at hs
      have hlt : n - 1 < cs.suspended.length := (List.get?_eq_some.mp hs).1
      simp only [get_stack_base_frame_id, if_neg hn, if_pos (Nat.le_of_lt hlt),
        Option.some_inj] at hb
      rw [foldl_add_length] at hb
      unfold get_stack_frame
      rw [if_neg (by omega)]
      have harith : base + l - cs.active.length
          = ((cs.suspended.take (n - 1)).map List.length).sum + l := by omega
      rw [harith]
      exact frames_walk_at cs.suspended (n - 1) l stack hs hl
  · intro g hg
    unfold get_stack_frame
    rw [if_neg (by omega)]
    exact frames_walk_none _ _ (by omega)

/-- A placeholder null value for concrete instantiations. -/
def v0 : Value := ⟨0, 0⟩

/-- A distinguishable placeholder frame for concrete instantiations. -/
def dummyFrame (n : Nat) : StackFrame :=
  ⟨⟨"/proc/f", 0, n⟩, 0, v0, v0, v0, v0, [], [], []⟩

/-- The spec's flattening example: active length 3, suspended lengths
[2, 4]. -/
def csEx : CallStacks :=
  ⟨[dummyFrame 0, dummyFrame 1, dummyFrame 2],
   [[dummyFrame 3, dummyFrame 4],
    [dummyFrame 5, dummyFrame 6, dummyFrame 7, dummyFrame 8]]⟩

/-- Witness for C2, the spec's example: bases are 0, 3, 5 and global frame 6
resolves to suspended stack #1, local index 1. -/
theorem C2_stack_flattening_witness :
    get_stack_base_frame_id csEx 1 = some 3
    ∧ get_stack_base_frame_id csEx 2 = some 5
    ∧ get_stack_frame csEx (5 + 1)
        = ([dummyFrame 5, dummyFrame 6, dummyFrame 7, dummyFrame 8].get? 1) := by
  have h := C2_stack_flattening csEx
  refine ⟨?_, ?_, ?_⟩
  · have := h.2.1 1 (by decide) (by decide)
    simpa using this
  · have := h.2.1 2 (by decide) (by decide)
    simpa using this
  · exact h.2.2.1 2 [dummyFrame 5, dummyFrame 6, dummyFrame 7, dummyFrame 8] 5 1 rfl rfl
      (by decide)

/-- A proc path plus override id as carried in requests (`ProcRef` in
`server_types`). -/
structure ProcRef where
  path : String
  override_id : Nat
  deriving DecidableEq

/-- A bytecode location: proc reference plus instruction offset
(`InstructionRef` in `server_types`). -/
structure InstructionRef where
  proc : ProcRef
  offset : Nat
  deriving DecidableEq

/-- Modelled from the spec: a decoded instruction of the external
disassembler.  The server only ever inspects the `DbgLine` line-marker
pseudo-instruction; every other instruction is opaque (`Op`).  The raw-bytes
column of the disassembly tuples is ignored by the scanned code and omitted
here. -/
inductive Instruction
  | DbgLine (line : Nat)
  | Op (code : Nat)
  deriving DecidableEq

/-- Modelled from the spec: the external VM list object as used by the
server — a length, 1-based indexed access, and associated-value lookup. -/
structure DMList where
  len : Nat
  getIndex : Nat → Except Runtime Value
  getKey : Value → Except Runtime Value

/-- The external collaborators of the debug core, exactly the interfaces of
spec §6: VM value introspection, proc lookup, the disassembler, the
instruction patch facility's success oracle, the clap command parser and the
stddef text.  `parse` returns the parser's error text, or `some (proc?, id?)`
for a recognized `disassemble` subcommand, or `none` for any other
subcommand. -/
structure Env where
  snapshot : CallStacks
  is_list : Value → Bool
  from_value : Value → Except Runtime DMList
  to_string : Value → Except Runtime String
  raw_string : Value → String
  get_field : Value → String → Except Runtime Value
  as_string : Value → Except Runtime String
  globals : Value
  find_override : String → Nat → Option Proc
  disassemble : Nat → List (Nat × Instruction)
  dism_text : Nat → Option Nat → Finset Nat → String
  proc_repr : Nat → String
  hook_ok : Nat → Nat → Bool
  parse : String → Except String (Option (Option String × Option String))
  stddef : Option String

/-- The line-marker tracking step of the scans: a `DbgLine` replaces the
current line, anything else keeps it. -/
def lineStep (current : Option Nat) : Instruction → Option Nat
  | .DbgLine line => some line
  | _ => current

/-- The scan loop of `Server::get_line_number`: stop (reached) at the first
instruction past `offset`, or at `offset` itself after taking its marker into
account; fall off the end unreached otherwise. -/
def line_scan (offset : Nat) : Option Nat → List (Nat × Instruction) → Option Nat
  | _, [] => none
  | current, (ioff, instr) :: rest =>
    if offset < ioff then current
    else if ioff = offset then lineStep current instr
    else line_scan offset (lineStep current instr) rest

/-- `Server::get_line_number`: resolve the proc and scan its decoded
instruction stream. -/
def get_line_number (env : Env) (proc : ProcRef) (offset : Nat) : Option Nat :=
  match env.find_override proc.path proc.override_id with
  | some p => line_scan offset none (env.disassemble p.id)
  | none => none

/-- The last line marker of a stream (the claim's characterization of what
the scan should report). -/
def last_line_marker (dism : List (Nat × Instruction)) : Option Nat :=
  dism.foldl (fun acc q => lineStep acc q.2) none

theorem line_scan_char (offset : Nat) (dism : List (Nat × Instruction)) (acc : Option Nat)
    (hs : dism.Pairwise (fun a b => a.1 < b.1)) :
    line_scan offset acc dism =
      if ∃ q ∈ dism, offset ≤ q.1 then
        (dism.filter (fun q => decide (q.1 ≤ offset))).foldl (fun a q => lineStep a q.2) acc
      else none := by
  induction dism generalizing acc with
  | nil => simp [line_scan]
  | cons q rest ih =>
    obtain ⟨ioff, instr⟩ := q
    have hhead : ∀ r ∈ rest, ioff < r.1 := by
      intro r hr
      exact (List.pairwise_cons.mp hs).1 r hr
    have hrest : rest.Pairwise (fun a b => a.1 < b.1) := (List.pairwise_cons.mp hs).2
    by_cases h1 : offset < ioff
    · have hex : ∃ r ∈ (ioff, instr) :: rest, offset ≤ r.1 :=
        ⟨(ioff, instr), List.mem_cons_self _ _, Nat.le_of_lt h1⟩
      rw [if_pos hex]
      have hfhead : ¬ (ioff ≤ offset) := by omega
      have hfilter : ((ioff, instr) :: rest).filter (fun q => decide (q.1 ≤ offset)) = [] := by
        rw [List.filter_cons_of_neg (by simpa using hfhead)]
        rw [List.filter_eq_nil_iff]
        intro r hr
        have := hhead r hr
        simp only [decide_eq_true_eq]
        omega
      rw [hfilter]
      simp [line_scan, if_pos h1]
    · by_cases h2 : ioff = offset
      · have hex : ∃ r ∈ (ioff, instr) :: rest, offset ≤ r.1 :=
          ⟨(ioff, instr), List.mem_cons_self _ _, by omega⟩
        rw [if_pos hex]
        have hfilter : ((ioff, instr) :: rest).filter (fun q => decide (q.1 ≤ offset))
            = [(ioff, instr)] := by
          rw [List.filter_cons_of_pos (by simp; omega)]
          rw [show rest.filter (fun q => decide (q.1 ≤ offset)) = [] from ?_]
          rw [List.filter_eq_nil_iff]
          intro r hr
          have := hhead r hr
          simp only [decide_eq_true_eq]
          omega
        rw [hfilter]
        simp [line_scan, if_neg h1, if_pos h2]
      · have hlt : ioff < offset := by omega
        have hstep : line_scan offset acc ((ioff, instr) :: rest)
            = line_scan offset (lineStep acc instr) rest := by
          simp [line_scan, if_neg h1, if_neg h2]
        rw [hstep, ih (lineStep acc instr) hrest]
        have hfilter : ((ioff, instr) :: rest).filter (fun q => decide (q.1 ≤ offset))
            = (ioff, instr) :: rest.filter (fun q => decide (q.1 ≤ offset)) :=
          List.filter_cons_of_pos (by simp; omega)
        have hex : (∃ r ∈ (ioff, instr) :: rest, offset ≤ r.1) ↔ (∃ r ∈ rest, offset ≤ r.1) := by
          constructor
          · rintro ⟨r, hr, hle⟩
            rcases List.mem_cons.mp hr with h | h
            · exfalso
              rw [h] at hle
              simp at hle
              omega
            · exact ⟨r, h, hle⟩
          · rintro ⟨r, hr, hle⟩
            exact ⟨r, List.mem_cons_of_mem _ hr, hle⟩
        by_cases hr : ∃ r ∈ rest, offset ≤ r.1
        · rw [if_pos hr, if_pos (hex.mpr hr), hfilter]
          rfl
        · rw [if_neg hr, if_neg (fun h => hr (hex.mp h))]

/-- C4: `line_for` on a proc whose decoded stream is strictly
address-ordered stops at the first instruction at or past `offset` and
returns the last line marker among the instructions at addresses `≤ offset`,
or `none` when the scan never reaches `offset` (no instruction lies at or
past it). -/
theorem C4_line_for (env : Env) (proc : ProcRef) (offset : Nat) (p : Proc)
    (hp : env.find_override proc.path proc.override_id = some p)
    (hs : (env.disassemble p.id).Pairwise (fun a b => a.1 < b.1)) :
    get_line_number env proc offset =
      if ∃ q ∈ env.disassemble p.id, offset ≤ q.1 then
        last_line_marker ((env.disassemble p.id).filter (fun q => decide (q.1 ≤ offset)))
      else none := by
  unfold get_line_number
  rw [hp]
  exact line_scan_char offset (env.disassemble p.id) none hs

/-- The scan loop of `Server::get_offset`: once the marker for the requested
line has been seen, return the very next instruction's address. -/
def offset_scan (line : Nat) : Bool → List (Nat × Instruction) → Option Nat
  | _, [] => none
  | at_offset, (ioff, instr) :: rest =>
    if at_offset then some ioff
    else offset_scan line (offsetFlag line instr) rest
where
  /-- Whether this instruction is the line marker for `line`. -/
  offsetFlag (line : Nat) : Instruction → Bool
    | .DbgLine current => current = line
    | _ => false

/-- `Server::get_offset`: resolve the proc and scan its decoded instruction
stream for the requested line. -/
def get_offset (env : Env) (proc : ProcRef) (line : Nat) : Option Nat :=
  match env.find_override proc.path proc.override_id with
  | some p => offset_scan line false (env.disassemble p.id)
  | none => none

/-- The claim's characterization: the address of the instruction immediately
following the first line marker equal to `line`, if both exist. -/
def offset_after_marker (line : Nat) : List (Nat × Instruction) → Option Nat
  | [] => none
  | (_, instr) :: rest =>
    if instr = .DbgLine line then rest.head?.map Prod.fst
    else offset_after_marker line rest

theorem offset_scan_true (line : Nat) (dism : List (Nat × Instruction)) :
    offset_scan line true dism = dism.head?.map Prod.fst := by
  cases dism with
  | nil => rfl
  | cons q rest =>
    obtain ⟨ioff, instr⟩ := q
    rfl

theorem offset_scan_eq (line : Nat) (dism : List (Nat × Instruction)) :
    offset_scan line false dism = offset_after_marker line dism := by
  induction dism with
  | nil => rfl
  | cons q rest ih =>
    obtain ⟨ioff, instr⟩ := q
    by_cases h : instr = .DbgLine line
    · have hf : offset_scan.offsetFlag line instr = true := by
        subst h
        simp [offset_scan.offsetFlag]
      calc offset_scan line false ((ioff, instr) :: rest)
          = offset_scan line (offset_scan.offsetFlag line instr) rest := by
            simp [offset_scan]
        _ = offset_scan line true rest := by rw [hf]
        _ = rest.head?.map Prod.fst := offset_scan_true line rest
        _ = offset_after_marker line ((ioff, instr) :: rest) := by
            simp [offset_after_marker, if_pos h]
    · have hf : offset_scan.offsetFlag line instr = false := by
        cases instr with
        | DbgLine c =>
          simp only [offset_scan.offsetFlag, decide_eq_false_iff_not]
          intro hc
          exact h (by rw [hc])
        | Op code => rfl
      calc offset_scan line false ((ioff, instr) :: rest)
          = offset_scan line (offset_scan.offsetFlag line instr) rest := by
            simp [offset_scan]
        _ = offset_scan line false rest := by rw [hf]
        _ = offset_after_marker line rest := ih
        _ = offset_after_marker line ((ioff, instr) :: rest) := by
            simp [offset_after_marker, if_neg h]

/-- C5: `offset_for` returns the address of the instruction immediately
following the first line marker equal to `line`, and `none` when no such
marker is found (or nothing follows it). -/
theorem C5_offset_for (env : Env) (proc : ProcRef) (line : Nat) (p : Proc)
    (hp : env.find_override proc.path proc.override_id = some p) :
    get_offset env proc line = offset_after_marker line (env.disassemble p.id) := by
  unfold get_offset
  rw [hp]
  exact offset_scan_eq line (env.disassemble p.id)

/-- A concrete resolvable proc for instantiations. -/
def procFoo : Proc := ⟨"/proc/foo", 0, 7⟩

/-- The spec's line-scan example stream:
`[(0, Line=10), (2, Op), (4, Line=12), (6, Op)]`. -/
def dismEx : List (Nat × Instruction) :=
  [(0, .DbgLine 10), (2, .Op 0), (4, .DbgLine 12), (6, .Op 1)]

/-- A concrete environment for instantiations: one resolvable proc
(`/proc/foo`, override 0) with the spec's example instruction stream, no
list/object structure on values, hooking succeeding below offset 100, and a
disassembly text that depends on the currently installed traps. -/
def envEx : Env where
  snapshot := csEx
  is_list := fun _ => false
  from_value := fun _ => .error ⟨"not a list"⟩
  to_string := fun v => .ok ("val" ++ toString v.data)
  raw_string := fun v => "raw" ++ toString v.data
  get_field := fun _ _ => .error ⟨"no such var"⟩
  as_string := fun _ => .error ⟨"not a string"⟩
  globals := ⟨ValueTag.GlobalVars, 0⟩
  find_override := fun path id => if path = "/proc/foo" ∧ id = 0 then some procFoo else none
  disassemble := fun _ => dismEx
  dism_text := fun _ off hooks =>
    "bytecode" ++ (if hooks = ∅ then "" else "-trapped") ++
      (match off with | some o => "@" ++ toString o | none => "")
  proc_repr := fun _ => "Proc(/proc/foo)"
  hook_ok := fun _ o => decide (o < 100)
  parse := fun _ => .error "bad command"
  stddef := none

/-- Witness for C4, the spec's example: `line_for(3) = 10`,
`line_for(5) = 12`, `line_for(7) = none`. -/
theorem C4_line_for_witness :
    (get_line_number envEx ⟨"/proc/foo", 0⟩ 3 =
      if ∃ q ∈ envEx.disassemble procFoo.id, 3 ≤ q.1 then
        last_line_marker ((envEx.disassemble procFoo.id).filter (fun q => decide (q.1 ≤ 3)))
      else none)
    ∧ get_line_number envEx ⟨"/proc/foo", 0⟩ 3 = some 10
    ∧ get_line_number envEx ⟨"/proc/foo", 0⟩ 5 = some 12
    ∧ get_line_number envEx ⟨"/proc/foo", 0⟩ 7 = none := by
  refine ⟨C4_line_for envEx ⟨"/proc/foo", 0⟩ 3 procFoo (by decide) (by decide), ?_, ?_, ?_⟩
  · decide
  · decide
  · decide

/-- Witness for C5, the spec's example: `offset_for(12) = 6` (the address of
the instruction following the `Line=12` marker). -/
theorem C5_offset_for_witness :
    get_offset envEx ⟨"/proc/foo", 0⟩ 12 = offset_after_marker 12 (envEx.disassemble procFoo.id)
    ∧ get_offset envEx ⟨"/proc/foo", 0⟩ 12 = some 6 := by
  refine ⟨C5_offset_for envEx ⟨"/proc/foo", 0⟩ 12 procFoo (by decide), by decide⟩

/-- Modelled from the spec: the resume granularities a `Continue` request can
carry and the pause handler returns (`ContinueKind` in `server_types`). -/
inductive ContinueKind
  | Continue
  | StepOver
  | StepInto
  | StepOut
  deriving DecidableEq

/-- Modelled from the spec: why the VM called into the pause handler
(`BreakpointReason` in `server_types`); only the runtime-error variant is
ever inspected by the server. -/
inductive BreakpointReason
  | Breakpoint
  | Step
  | Pause
  | Runtime (message : String)
  deriving DecidableEq

/-- Result payload of a `BreakpointSet` response. -/
inductive BreakpointSetResult
  | Success (line : Option Nat)
  | Failed
  deriving DecidableEq

/-- One displayable variable row: name, rendered value, optional child
reference (struct `Variable` in `server_types`; the child-reference field is
called `variables` in the source, a name reserved here). -/
structure Variable where
  name : String
  value : String
  vars : Option Int
  deriving DecidableEq

/-- One entry of a `Stacks` response (struct `Stack` in `server_types`;
renamed to avoid clashing with the query kind). -/
structure StackRow where
  id : Nat
  name : String
  deriving DecidableEq

/-- One entry of a `StackFrames` response (struct `StackFrame` in
`server_types`; renamed to avoid clashing with the snapshot frame type). -/
structure StackFrameRow where
  id : Nat
  instruction : InstructionRef
  line : Option Nat
  deriving DecidableEq

/-- Modelled from the spec: the server→client response union
(`Response` in `server_types`). -/
inductive Response
  | Ack
  | BreakpointSet (result : BreakpointSetResult)
  | BreakpointUnset (success : Bool)
  | Stacks (list : List StackRow)
  | StackFrames (frames : List StackFrameRow) (total_count : Nat)
  | Scopes (arguments : Option Int) (locals : Option Int) (globals : Option Int)
  | Variables (vars : List Variable)
  | Eval (text : String)
  | LineNumber (line : Option Nat)
  | Offset (offset : Option Nat)
  | Notification (message : String)
  | BreakpointHit (reason : BreakpointReason)
  | Disconnect
  | StdDef (text : Option String)
  | CurrentInstruction (instruction : Option InstructionRef)
  deriving DecidableEq

/-- Modelled from the spec: the client→server request union
(`Request` in `server_types`). -/
inductive Request
  | Disconnect
  | CatchRuntimes (should_catch : Bool)
  | BreakpointSet (instruction : InstructionRef)
  | BreakpointUnset (instruction : InstructionRef)
  | Stacks
  | Scopes (frame_id : Nat)
  | Variables (vars : Int)
  | Eval (frame_id : Option Nat) (command : String)
  | StackFrames (stack_id : Nat) (start_frame : Option Nat) (count : Option Nat)
  | LineNumber (proc : ProcRef) (offset : Nat)
  | Offset (proc : ProcRef) (line : Nat)
  | Pause
  | StdDef
  | CurrentInstruction (frame_id : Nat)
  | Configured
  | Continue (kind : ContinueKind)
  deriving DecidableEq

/-- The connection state (`ServerStream`).  The `Waiting` payload models
whether the listener thread has already delivered a connection over the
one-shot channel. -/
inductive ServerStream
  | Waiting (pending : Option Unit)
  | Connected
  | Disconnected
  deriving DecidableEq

/-- One observable event on the socket: a framed response written out, or
the final shutdown of the teardown sequence. -/
inductive WireEvent
  | frame (r : Response)
  | shutdown
  deriving DecidableEq

/-- The main-thread server.  `wire` is the sequence of events successfully
written to the socket; `io` prescribes the outcomes of the next socket
writes (empty = every write succeeds), modelling transport failures; and
`hooked` mirrors the external instruction patcher's per-proc set of trapped
offsets (global state of `instruction_hooking`, keyed by proc id). -/
structure Server where
  stream : ServerStream
  should_catch_runtimes : Bool
  should_show_internals : Bool
  wire : List WireEvent
  io : List Bool
  hooked : Nat → Finset Nat

/-- `Server::send`: serialize and write one framed response; the outcome is
drawn from the `io` oracle (success when exhausted).  Only ever called with
a connected stream. -/
def Server.sendRaw (srv : Server) (response : Response) : Bool × Server :=
  match srv.io with
  | [] => (true, { srv with wire := srv.wire ++ [.frame response] })
  | ok :: rest =>
    if ok then (true, { srv with wire := srv.wire ++ [.frame response], io := rest })
    else (false, { srv with io := rest })

/-- `Server::disconnect`: when still connected, write the `Disconnect` frame
and shut the socket down (the teardown sequence), then mark the stream
`Disconnected`; in every other state only the marker is (re)assigned. -/
def Server.disconnect (srv : Server) : Server :=
  match srv.stream with
  | .Connected =>
    { srv with
        wire := srv.wire ++ [.frame .Disconnect, .shutdown],
        stream := .Disconnected }
  | _ => { srv with stream := .Disconnected }

/-- `Server::send_or_disconnect`: send on a connected stream, tearing down
on failure; on a waiting or disconnected stream the source hits
`unreachable!("Debug Server is not connected")`, modelled `none`. -/
def Server.send_or_disconnect (srv : Server) (response : Response) : Option Server :=
  match srv.stream with
  | .Connected =>
    match srv.sendRaw response with
    | (true, srv') => some srv'
    | (false, srv') => some srv'.disconnect
  | .Waiting _ => none
  | .Disconnected => none

/-- `Drop for Server`: destruction calls `disconnect`. -/
def Server.drop (srv : Server) : Server :=
  srv.disconnect

/-- `Server::check_connected`: poll the one-shot connection channel in the
waiting state; report whether the stream is connected. -/
def Server.check_connected (srv : Server) : Bool × Server :=
  match srv.stream with
  | .Disconnected => (false, srv)
  | .Connected => (true, srv)
  | .Waiting (some _) => (true, { srv with stream := .Connected })
  | .Waiting none => (false, srv)

/-- `Server::notify`: log to stderr (unobservable here) and, when connected,
send a `Notification` response. -/
def Server.notify (srv : Server) (message : String) : Option Server :=
  match srv.check_connected with
  | (true, srv') => srv'.send_or_disconnect (.Notification message)
  | (false, srv') => some srv'

/-- Pointwise insertion into one proc's trap set. -/
def hookInsert (h : Nat → Finset Nat) (p o : Nat) : Nat → Finset Nat :=
  fun q => if q = p then insert o (h q) else h q

/-- Pointwise removal from one proc's trap set. -/
def hookErase (h : Nat → Finset Nat) (p o : Nat) : Nat → Finset Nat :=
  fun q => if q = p then (h q).erase o else h q

/-- Modelled from the spec: `instruction_hooking::hook_instruction` (the
external patch facility, not part of the scanned sources) — install a trap
at an offset; when the patcher cannot (oracle `hook_ok` false), fail with
the trap state unchanged (no partial install). -/
def hook_instruction (env : Env) (srv : Server) (proc : Proc) (offset : Nat) :
    Except Unit Server :=
  if env.hook_ok proc.id offset then
    .ok { srv with hooked := hookInsert srv.hooked proc.id offset }
  else .error ()

/-- Modelled from the spec: `instruction_hooking::unhook_instruction` —
remove an installed trap (always succeeds for an installed one); removing a
never-installed trap fails with the state unchanged. -/
def unhook_instruction (srv : Server) (proc : Proc) (offset : Nat) :
    Except Unit Server :=
  if offset ∈ srv.hooked proc.id then
    .ok { srv with hooked := hookErase srv.hooked proc.id offset }
  else .error ()

/-- The wrap-around constant of 64-bit arithmetic. -/
def U64 : Nat := 2 ^ 64

/-- The Rust `as usize` cast of an `i32` handle: sign extension, i.e. the
value modulo `2^64`. -/
def i32ToUsize (r : Int) : Nat := (r % (U64 : Int)).toNat

/-- `State::get_variables`: reverse lookup `variables[reference - 1]`, with
the cast and the subtraction of 1 performed in wrapping 64-bit arithmetic
(release semantics of `reference.0 as usize - 1`); any out-of-range index
yields `none`. -/
def State.get_variables (s : State) (reference : Int) : Option Variables :=
  s.vars.get? ((i32ToUsize reference + (U64 - 1)) % U64)

/-- `Server::is_object`: the hard-coded world-singleton case, else whether
the value exposes a `vars` field. -/
def is_object (env : Env) (value : Value) : Bool :=
  if value.tag = ValueTag.World ∧ value.data = 1 then true
  else
    match env.get_field value "vars" with
    | .ok _ => true
    | .error _ => false

/-- `Server::value_to_variable`: lists get a `ListContents` child and a
`/list \x7blen = N\x7d` rendering (or the failure placeholder); objects get
an `ObjectVars` child; the display text is the value's string conversion,
falling back to the raw rendering when empty or failed. -/
def value_to_variable (env : Env) (st : State) (name : String) (value : Value) :
    Variable × State :=
  if env.is_list value then
    let rs := st.get_ref (.ListContents value.tag value.data)
    let stringified :=
      match env.from_value value with
      | .ok list => "/list \x7blen = " ++ toString list.len ++ "\x7d"
      | .error e => "/list (failed to get len: \"" ++ e.message ++ "\")"
    (⟨name, stringified, some rs.1⟩, rs.2)
  else
    let vs :=
      if is_object env value then
        let rs := st.get_ref (.ObjectVars value.tag value.data)
        ((some rs.1 : Option Int), rs.2)
      else (none, st)
    let stringified :=
      match env.to_string value with
      | .ok v => if v.isEmpty then env.raw_string value else v
      | .error e => env.raw_string value ++ " -- stringify error: \"" ++ e.message ++ "\""
    (⟨name, stringified, vs.1⟩, vs.2)

/-- The `1..=len` loop of `Server::list_to_variables`: an association entry
renders as `key = value` with a `ListPair` child (a string-conversion
failure propagates, keeping the interning done so far); other entries go
through `value_to_variable`. -/
def list_loop (env : Env) (list : DMList) :
    State → List Variable → List Nat → Except Runtime (List Variable) × State
  | st, acc, [] => (.ok acc, st)
  | st, acc, i :: rest =>
    match list.getIndex i with
    | .error e => (.error e, st)
    | .ok key =>
      match list.getKey key with
      | .ok value =>
        if value.tag ≠ ValueTag.Null then
          match env.to_string key with
          | .error e => (.error e, st)
          | .ok ks =>
            match env.to_string value with
            | .error e => (.error e, st)
            | .ok vstr =>
              let rs := st.get_ref (.ListPair key.tag key.data value.tag value.data)
              list_loop env list rs.2
                (acc ++ [⟨"[" ++ toString i ++ "]", ks ++ " = " ++ vstr, some rs.1⟩]) rest
        else
          let v := value_to_variable env st ("[" ++ toString i ++ "]") key
          list_loop env list v.2 (acc ++ [v.1]) rest
      | .error _ =>
        let v := value_to_variable env st ("[" ++ toString i ++ "]") key
        list_loop env list v.2 (acc ++ [v.1]) rest

/-- `Server::list_to_variables`. -/
def list_to_variables (env : Env) (st : State) (value : Value) :
    Except Runtime (List Variable) × State :=
  match env.from_value value with
  | .error e => (.error e, st)
  | .ok list => list_loop env list st [] (List.range' 1 list.len)

/-- The field loop of `Server::object_to_variables`, separating the `type`
field (displayed on top) from the rest. -/
def object_loop (env : Env) (value : Value) (fields : DMList) :
    State → List Variable → List Variable → List Nat →
      Except Runtime (List Variable × List Variable) × State
  | st, top, normal, [] => (.ok (top, normal), st)
  | st, top, normal, i :: rest =>
    match fields.getIndex i with
    | .error e => (.error e, st)
    | .ok nameValue =>
      match env.as_string nameValue with
      | .error e => (.error e, st)
      | .ok name =>
        match env.get_field value name with
        | .error e => (.error e, st)
        | .ok fieldValue =>
          let v := value_to_variable env st name fieldValue
          if v.1.name = "type" then
            object_loop env value fields v.2 (top ++ [v.1]) normal rest
          else
            object_loop env value fields v.2 top (normal ++ [v.1]) rest

/-- `Server::object_to_variables`: resolve the fields list (substituting the
synthetic global pseudo-object for the world singleton), convert every
field, surface `type` first and sort the rest case-insensitively (the
source's stable `sort_by_key` on the lowercased name). -/
def object_to_variables (env : Env) (st : State) (value : Value) :
    Except Runtime (List Variable) × State :=
  match (if value.tag = ValueTag.World ∧ value.data = 1 then
      .ok ⟨ValueTag.GlobalVars, 0⟩
    else env.get_field value "vars" : Except Runtime Value) with
  | .error e => (.error e, st)
  | .ok vv =>
    match env.from_value vv with
    | .error e => (.error e, st)
    | .ok fields =>
      match object_loop env value fields st [] [] (List.range' 1 fields.len) with
      | (.error e, st') => (.error e, st')
      | (.ok tn, st') =>
        (.ok (tn.1 ++ tn.2.insertionSort (fun a b => a.name.toLower ≤ b.name.toLower)), st')

/-- The argument loop of `Server::get_args`, with its 1-based counter for
unnamed arguments. -/
def args_loop (env : Env) :
    State → Nat → List Variable → List (Option String × Value) → List Variable × State
  | st, _, acc, [] => (acc, st)
  | st, unnamed_count, acc, (name?, value) :: rest =>
    match name? with
    | some name =>
      let v := value_to_variable env st name value
      args_loop env v.2 unnamed_count (acc ++ [v.1]) rest
    | none =>
      let n := unnamed_count + 1
      let v := value_to_variable env st ("undefined argument #" ++ toString n) value
      args_loop env v.2 n (acc ++ [v.1]) rest

/-- `Server::get_args`: synthetic `src`/`usr`, the call arguments, then —
when internals display is enabled — the trailing `BYOND Internals` entry,
whose `Internals` kind is interned only after the frame lookup succeeded; an
invalid frame id degrades to a notification plus an empty list. -/
def Server.get_args (srv : Server) (env : Env) (st : State) (frame_index : Nat) :
    Option (List Variable × Server × State) :=
  match get_stack_frame st.snapshot frame_index with
  | some frame =>
    let v1 := value_to_variable env st "src" frame.src
    let v2 := value_to_variable env v1.2 "usr" frame.usr
    let av := args_loop env v2.2 0 [] frame.args
    let vars := v1.1 :: v2.1 :: av.1
    if srv.should_show_internals then
      let rs := av.2.get_ref (.Internals frame_index)
      some (vars ++ [⟨"BYOND Internals", "", some rs.1⟩], srv, rs.2)
    else some (vars, srv, av.2)
  | none =>
    match srv.notify ("tried to read arguments from invalid frame id: "
        ++ toString frame_index) with
    | some srv' => some ([], srv', st)
    | none => none

/-- The named-locals loop of `Server::get_locals`. -/
def locals_loop (env : Env) :
    State → List Variable → List (String × Value) → List Variable × State
  | st, acc, [] => (acc, st)
  | st, acc, (name, value) :: rest =>
    let v := value_to_variable env st name value
    locals_loop env v.2 (acc ++ [v.1]) rest

/-- `Server::get_locals`: the synthetic `.` value then the named locals. -/
def Server.get_locals (srv : Server) (env : Env) (st : State) (frame_index : Nat) :
    Option (List Variable × Server × State) :=
  match get_stack_frame st.snapshot frame_index with
  | some frame =>
    let v1 := value_to_variable env st "." frame.dot
    let lv := locals_loop env v1.2 [] frame.locals
    some (v1.1 :: lv.1, srv, lv.2)
  | none =>
    match srv.notify ("tried to read locals from invalid frame id: "
        ++ toString frame_index) with
    | some srv' => some ([], srv', st)
    | none => none

/-- The positional loop of `Server::get_vm_stack`, naming slots `[i]` from
0. -/
def stack_loop (env : Env) :
    State → Nat → List Variable → List Value → List Variable × State
  | st, _, acc, [] => (acc, st)
  | st, i, acc, value :: rest =>
    let v := value_to_variable env st ("[" ++ toString i ++ "]") value
    stack_loop env v.2 (i + 1) (acc ++ [v.1]) rest

/-- `Server::get_vm_stack`: the raw evaluation-stack slots by position. -/
def Server.get_vm_stack (srv : Server) (env : Env) (st : State) (frame_index : Nat) :
    Option (List Variable × Server × State) :=
  match get_stack_frame st.snapshot frame_index with
  | some frame =>
    let sv := stack_loop env st 0 [] frame.stack
    some (sv.1, srv, sv.2)
  | none =>
    match srv.notify ("tried to read vm stack from invalid frame id: "
        ++ toString frame_index) with
    | some srv' => some ([], srv', st)
    | none => none

/-- `Server::handle_breakpoint_set`: the source resolves the line first,
then the proc; hooking success answers `Success{line}`, a missing proc or a
patch failure answers `Failed` (with the trap state untouched). -/
def Server.handle_breakpoint_set (srv : Server) (env : Env) (instruction : InstructionRef) :
    Option Server :=
  let line := get_line_number env instruction.proc instruction.offset
  match env.find_override instruction.proc.path instruction.proc.override_id with
  | some proc =>
    match hook_instruction env srv proc instruction.offset with
    | .ok srv' => srv'.send_or_disconnect (.BreakpointSet (.Success line))
    | .error _ => srv.send_or_disconnect (.BreakpointSet .Failed)
  | none => srv.send_or_disconnect (.BreakpointSet .Failed)

/-- `Server::handle_breakpoint_unset`: boolean success of removing a trap. -/
def Server.handle_breakpoint_unset (srv : Server) (env : Env) (instruction : InstructionRef) :
    Option Server :=
  match env.find_override instruction.proc.path instruction.proc.override_id with
  | some proc =>
    match unhook_instruction srv proc instruction.offset with
    | .ok srv' => srv'.send_or_disconnect (.BreakpointUnset true)
    | .error _ => srv.send_or_disconnect (.BreakpointUnset false)
  | none => srv.send_or_disconnect (.BreakpointUnset false)

/-- Rows for the suspended stacks in `Server::handle_stacks` (`stack[0]`
panics — `none` — on an empty suspended stack). -/
def stacks_rows : Nat → List (List StackFrame) → Option (List StackRow)
  | _, [] => some []
  | idx, s :: rest =>
    match s.get? 0 with
    | some f => (stacks_rows (idx + 1) rest).map (fun rs => ⟨idx, f.proc.path⟩ :: rs)
    | none => none

/-- `Server::handle_stacks`: entry 0 names the active stack's top proc and
entry `idx + 1` each suspended stack's; degrades to an empty list when no
session is live. -/
def Server.handle_stacks (srv : Server) (state? : Option State) : Option Server :=
  match state? with
  | some st =>
    match st.snapshot.active.get? 0 with
    | some f0 =>
      match stacks_rows 1 st.snapshot.suspended with
      | some rows => srv.send_or_disconnect (.Stacks (⟨0, f0.proc.path⟩ :: rows))
      | none => none
    | none => none
  | none => srv.send_or_disconnect (.Stacks [])

/-- `Server::handle_stack_frames`: page `[start, start + count)` of one
stack (the loop breaks at the stack's length), each row carrying the
flattened frame id, its instruction and its resolved line; an unknown stack
id degrades to a notification plus an empty response.  (In-range indexing is
expressed with `filterMap`; the `takeWhile` bound makes every lookup hit.) -/
def Server.handle_stack_frames (srv : Server) (env : Env) (st : State) (stack_id : Nat)
    (start_frame : Option Nat) (count : Option Nat) : Option Server :=
  match get_stack st.snapshot stack_id with
  | some stack =>
    match get_stack_base_frame_id st.snapshot stack_id with
    | some frame_base =>
      let start := start_frame.getD 0
      let stop := start + count.getD stack.length
      let rows := ((List.range' start (stop - start)).takeWhile
          (fun i => decide (i < stack.length))).filterMap
        (fun i => (stack.get? i).map (fun fr =>
          ({ id := frame_base + i,
             instruction := ⟨⟨fr.proc.path, fr.proc.override_id⟩, fr.offset⟩,
             line := get_line_number env ⟨fr.proc.path, fr.proc.override_id⟩ fr.offset }
            : StackFrameRow)))
      srv.send_or_disconnect (.StackFrames rows stack.length)
    | none => none
  | none =>
    match srv.notify "received StackFrames request when not paused" with
    | some srv' => srv'.send_or_disconnect (.StackFrames [] 0)
    | none => none

/-- `Server::handle_scopes`: intern `Arguments{frame}`, `Locals{frame}` and
the globals value's `ObjectVars`, answering with the three handles. -/
def Server.handle_scopes (srv : Server) (env : Env) (st : State) (frame_id : Nat) :
    Option (Server × State) :=
  let ra := st.get_ref (.Arguments frame_id)
  let rl := ra.2.get_ref (.Locals frame_id)
  let rg := rl.2.get_ref (.ObjectVars env.globals.tag env.globals.data)
  match srv.send_or_disconnect (.Scopes (some ra.1) (some rl.1) (some rg.1)) with
  | some srv' => some (srv', rg.2)
  | none => none

/-- `Server::handle_variables`: reverse-look up the handle and expand one
level.  An unknown handle degrades to a notification plus an empty
`Variables` response; a list/object introspection failure likewise; the
`Internals` branch interns the nested `Stack` reference and then unwraps the
frame lookup (`none` models that panic). -/
def Server.handle_variables (srv : Server) (env : Env) (st : State) (r : Int) :
    Option (Server × State) :=
  match st.get_variables r with
  | some kind =>
    match kind with
    | .Arguments frame =>
      match srv.get_args env st frame with
      | some (vs, srv', st') =>
        match srv'.send_or_disconnect (.Variables vs) with
        | some srv'' => some (srv'', st')
        | none => none
      | none => none
    | .Locals frame =>
      match srv.get_locals env st frame with
      | some (vs, srv', st') =>
        match srv'.send_or_disconnect (.Variables vs) with
        | some srv'' => some (srv'', st')
        | none => none
      | none => none
    | .ObjectVars tag data =>
      match object_to_variables env st ⟨tag, data⟩ with
      | (.ok vs, st') =>
        match srv.send_or_disconnect (.Variables vs) with
        | some srv'' => some (srv'', st')
        | none => none
      | (.error e, st') =>
        match srv.notify ("runtime occured while processing Variables request: \""
            ++ e.message ++ "\"") with
        | some srv' =>
          match srv'.send_or_disconnect (.Variables []) with
          | some srv'' => some (srv'', st')
          | none => none
        | none => none
    | .ListContents tag data =>
      match list_to_variables env st ⟨tag, data⟩ with
      | (.ok vs, st') =>
        match srv.send_or_disconnect (.Variables vs) with
        | some srv'' => some (srv'', st')
        | none => none
      | (.error e, st') =>
        match srv.notify ("runtime occured while processing Variables request: \""
            ++ e.message ++ "\"") with
        | some srv' =>
          match srv'.send_or_disconnect (.Variables []) with
          | some srv'' => some (srv'', st')
          | none => none
        | none => none
    | .ListPair key_tag key_data value_tag value_data =>
      let kv := value_to_variable env st "key" ⟨key_tag, key_data⟩
      let vv := value_to_variable env kv.2 "value" ⟨value_tag, value_data⟩
      match srv.send_or_disconnect (.Variables [kv.1, vv.1]) with
      | some srv'' => some (srv'', vv.2)
      | none => none
    | .Internals frame =>
      let rs := st.get_ref (.Stack frame)
      match get_stack_frame rs.2.snapshot frame with
      | some stack_data =>
        let cv := value_to_variable env rs.2 "Cache" stack_data.cache
        match srv.send_or_disconnect (.Variables [⟨"Stack", "", some rs.1⟩, cv.1]) with
        | some srv'' => some (srv'', cv.2)
        | none => none
      | none => none
    | .Stack frame =>
      match srv.get_vm_stack env st frame with
      | some (vs, srv', st') =>
        match srv'.send_or_disconnect (.Variables vs) with
        | some srv'' => some (srv'', st')
        | none => none
      | none => none
  | none =>
    match srv.notify "received unknown VariableRef in Variables request" with
    | some srv' =>
      match srv'.send_or_disconnect (.Variables []) with
      | some srv'' => some (srv'', st)
      | none => none
    | none => none

/-- Remove every trap in the list, each removal `unwrap`ped (`none` models
the panic on failure). -/
def unhook_all (proc : Proc) : Server → List Nat → Option Server
  | srv, [] => some srv
  | srv, o :: rest =>
    match unhook_instruction srv proc o with
    | .ok srv' => unhook_all proc srv' rest
    | .error _ => none

/-- Reinstall every trap in the list, each install `unwrap`ped. -/
def hook_all (env : Env) (proc : Proc) : Server → List Nat → Option Server
  | srv, [] => some srv
  | srv, o :: rest =>
    match hook_instruction env srv proc o with
    | .ok srv' => hook_all env proc srv' rest
    | .error _ => none

/-- `Server::handle_disassemble`: temporarily remove all traps installed in
the target proc (`get_hooked_offsets`, modelled as the sorted trap set),
render the disassembly, reinstall them. -/
def Server.handle_disassemble (srv : Server) (env : Env) (path : String) (id : Nat)
    (current_offset : Option Nat) : Option (String × Server) :=
  match env.find_override path id with
  | some proc =>
    let breaks := (srv.hooked proc.id).sort (· ≤ ·)
    match unhook_all proc srv breaks with
    | some srv' =>
      let dism := env.dism_text proc.id current_offset (srv'.hooked proc.id)
      match hook_all env proc srv' breaks with
      | some srv'' => some ("Dism for " ++ env.proc_repr proc.id ++ "\n" ++ dism, srv'')
      | none => none
    | none => none
  | none => some ("Proc not found", srv)

/-- `Server::handle_command`: parse via the external clap `App`; only the
`disassemble` subcommand is recognized (ids parsed as numbers, defaulting to
0); without an explicit proc argument the currently selected frame decides
(the `state.unwrap()` panic is `none`); parse errors echo the parser's
message. -/
def Server.handle_command (srv : Server) (env : Env) (state? : Option State)
    (frame_id : Option Nat) (command : String) : Option (String × Server) :=
  match env.parse command with
  | .ok (some pi) =>
    match pi.1 with
    | some procPath =>
      let id := (pi.2.bind (fun x => x.toNat?)).getD 0
      srv.handle_disassemble env procPath id none
    | none =>
      match frame_id with
      | some fid =>
        match state? with
        | some st =>
          match get_stack_frame st.snapshot fid with
          | some frame =>
            srv.handle_disassemble env frame.proc.path frame.proc.override_id
              (some frame.offset)
          | none => some ("couldn't find stack frame (is execution not paused?)", srv)
        | none => none
      | none => some ("no execution frame selected", srv)
  | .ok none => some ("unknown command", srv)
  | .error msg => some (msg, srv)

/-- `Server::handle_eval`: a leading `#` dispatches to the command handler;
anything else answers the fixed cannot-evaluate message. -/
def Server.handle_eval (srv : Server) (env : Env) (state? : Option State)
    (frame_id : Option Nat) (command : String) : Option Server :=
  if command.startsWith "#" then
    match srv.handle_command env state? frame_id (command.drop 1) with
    | some (response, srv') => srv'.send_or_disconnect (.Eval response)
    | none => none
  else
    srv.send_or_disconnect
      (.Eval "Auxtools can't currently evaluate DM. To see available commands, use `#help`")

/-- `Server::handle_request`: the dispatcher.  Returns the updated server,
the (possibly grown) session state, and whether a pause was requested;
`none` models the panics (`unreachable!` on a `Disconnect` reaching the
dispatcher, `unwrap` of a missing session on session-scoped requests). -/
def Server.handle_request (srv : Server) (env : Env) (state? : Option State)
    (request : Request) : Option (Server × Option State × Bool) :=
  match request with
  | .Disconnect => none
  | .CatchRuntimes should_catch =>
    some ({ srv with should_catch_runtimes := should_catch }, state?, false)
  | .BreakpointSet instruction =>
    match srv.handle_breakpoint_set env instruction with
    | some srv' => some (srv', state?, false)
    | none => none
  | .BreakpointUnset instruction =>
    match srv.handle_breakpoint_unset env instruction with
    | some srv' => some (srv', state?, false)
    | none => none
  | .Stacks =>
    match srv.handle_stacks state? with
    | some srv' => some (srv', state?, false)
    | none => none
  | .Scopes frame_id =>
    match state? with
    | some st =>
      match srv.handle_scopes env st frame_id with
      | some (srv', st') => some (srv', some st', false)
      | none => none
    | none => none
  | .Variables vars =>
    match state? with
    | some st =>
      match srv.handle_variables env st vars with
      | some (srv', st') => some (srv', some st', false)
      | none => none
    | none => none
  | .Eval frame_id command =>
    match srv.handle_eval env state? frame_id command with
    | some srv' => some (srv', state?, false)
    | none => none
  | .StackFrames stack_id start_frame count =>
    match state? with
    | some st =>
      match srv.handle_stack_frames env st stack_id start_frame count with
      | some srv' => some (srv', state?, false)
      | none => none
    | none => none
  | .LineNumber proc offset =>
    match srv.send_or_disconnect (.LineNumber (get_line_number env proc offset)) with
    | some srv' => some (srv', state?, false)
    | none => none
  | .Offset proc line =>
    match srv.send_or_disconnect (.Offset (get_offset env proc line)) with
    | some srv' => some (srv', state?, false)
    | none => none
  | .Pause =>
    match srv.send_or_disconnect .Ack with
    | some srv' => some (srv', state?, true)
    | none => none
  | .StdDef =>
    match srv.send_or_disconnect (.StdDef env.stddef) with
    | some srv' => some (srv', state?, false)
    | none => none
  | .CurrentInstruction frame_id =>
    match state? with
    | some st =>
      match srv.send_or_disconnect (.CurrentInstruction
          ((get_stack_frame st.snapshot frame_id).map (fun fr =>
            InstructionRef.mk ⟨fr.proc.path, fr.proc.override_id⟩ fr.offset))) with
      | some srv' => some (srv', state?, false)
      | none => none
    | none => none
  | .Configured =>
    match srv.send_or_disconnect .Ack with
    | some srv' => some (srv', state?, false)
    | none => none
  | .Continue _ =>
    match srv.send_or_disconnect .Ack with
    | some srv' => some (srv', state?, false)
    | none => none

/-- Whether a pause reason is an uncaught runtime error (the
`if let BreakpointReason::Runtime(_) = reason` test). -/
def isRuntime : BreakpointReason → Bool
  | .Runtime _ => true
  | _ => false

/-- The `Debug` rendering of a pause reason used in the pause
notification. -/
def reasonText : BreakpointReason → String
  | .Breakpoint => "Breakpoint"
  | .Step => "Step"
  | .Pause => "Pause"
  | .Runtime m => "Runtime(\"" ++ m ++ "\")"

/-- The blocking request loop of `Server::handle_breakpoint`: hijack the
first `Continue{kind}` (acknowledge it and return the kind), service every
other request against the live session; an exhausted queue (closed channel)
resumes with plain `Continue`. -/
def Server.handle_breakpoint_loop (env : Env) :
    Server → State → List Request → Option (ContinueKind × Server)
  | srv, _, [] => some (.Continue, srv)
  | srv, st, request :: rest =>
    match request with
    | .Continue kind =>
      match srv.send_or_disconnect .Ack with
      | some srv' => some (kind, srv')
      | none => none
    | _ =>
      match srv.handle_request env (some st) request with
      | some (srv', st?, _) => Server.handle_breakpoint_loop env srv' (st?.getD st) rest
      | none => none

/-- `Server::handle_breakpoint`: return plain `Continue` untouched when not
connected, or when the reason is a runtime error while runtime-catching is
disabled; otherwise notify, snapshot a fresh session, send `BreakpointHit`
and block in the request loop. -/
def Server.handle_breakpoint (srv : Server) (env : Env) (reason : BreakpointReason)
    (requests : List Request) : Option (ContinueKind × Server) :=
  match srv.check_connected with
  | (false, srv') => some (.Continue, srv')
  | (true, srv') =>
    if isRuntime reason && !srv'.should_catch_runtimes then
      some (.Continue, srv')
    else
      match srv'.notify ("Pausing execution (reason: " ++ reasonText reason ++ ")") with
      | some srv'' =>
        let st := State.new env.snapshot
        match srv''.send_or_disconnect (.BreakpointHit reason) with
        | some srv3 => Server.handle_breakpoint_loop env srv3 st requests
        | none => none
      | none => none

/-- Sequential servicing of a request list against a live session (the
non-`Continue` steps of the pause loop). -/
def serviceAll (env : Env) : Server → State → List Request → Option (Server × State)
  | srv, st, [] => some (srv, st)
  | srv, st, request :: rest =>
    match srv.handle_request env (some st) request with
    | some (srv', st?, _) => serviceAll env srv' (st?.getD st) rest
    | none => none

/-- A server whose stream has already been torn down. -/
def srvD : Server := ⟨.Disconnected, true, true, [], [], fun _ => ∅⟩

/-- A connected server with a clean wire and an all-success send oracle. -/
def srvConn : Server := ⟨.Connected, true, true, [], [], fun _ => ∅⟩

/-- C6 counterexample: the claim says every further send attempt after the
transition to `Disconnected` is a no-op.  In the source,
`send_or_disconnect` on a disconnected stream is
`unreachable!("Debug Server is not connected")` — a panic (modelled `none`),
not a no-op returning the server unchanged. -/
theorem C6_send_after_disconnect_panics :
    Server.send_or_disconnect srvD .Ack = none := rfl

/-- C6 (amended): teardown is one-way and at most once.  After the stream is
`Disconnected`: a `notify`-level send attempt is a no-op that writes
nothing; a direct `send_or_disconnect` hits an unreachable assertion
(writing nothing to the socket); a repeated `disconnect` is a no-op, so the
teardown sequence (disconnect frame, shutdown) never runs twice; `drop`
after a disconnect emits no second `Disconnect` frame.  `disconnect` always
leaves the stream `Disconnected` (one-way), and a send failure on a
connected stream runs the teardown sequence exactly once. -/
theorem C6_teardown_once (srv : Server) (r : Response) (msg : String) :
    (srv.stream = .Disconnected → srv.notify msg = some srv)
    ∧ (srv.stream = .Disconnected → srv.send_or_disconnect r = none)
    ∧ (srv.stream = .Disconnected → srv.disconnect = srv)
    ∧ (srv.disconnect.stream = .Disconnected)
    ∧ (srv.stream = .Disconnected → (Server.drop srv).wire = srv.wire)
    ∧ (srv.stream = .Connected → srv.io = [false] →
        srv.send_or_disconnect r
          = some { srv with
                    io := [],
                    wire := srv.wire ++ [.frame .Disconnect, .shutdown],
                    stream := .Disconnected }) := by
  obtain ⟨stream, catchR, showInt, wire, io, hooked⟩ := srv
  refine ⟨?_, ?_, ?_, ?_, ?_, ?_⟩
  · intro h
    simp only at h
    subst h
    rfl
  · intro h
    simp only at h
    subst h
    rfl
  · intro h
    simp only at h
    subst h
    rfl
  · cases stream <;> rfl
  · intro h
    simp only at h
    subst h
    rfl
  · intro h1 h2
    simp only at h1 h2
    subst h1
    subst h2
    rfl

/-- Witness for C6 (amended): a notify on the disconnected server writes
nothing; dropping it emits no second `Disconnect` frame; a send failure on a
connected server with a failing oracle runs the teardown once. -/
theorem C6_teardown_once_witness :
    srvD.notify "late" = some srvD
    ∧ (Server.drop srvD).wire = srvD.wire
    ∧ (Server.send_or_disconnect ⟨.Connected, true, true, [], [false], fun _ => ∅⟩ .Ack
        = some { (⟨.Connected, true, true, [], [false], fun _ => ∅⟩ : Server) with
                  io := ([] : List Bool),
                  wire := ([] : List WireEvent) ++ [.frame .Disconnect, .shutdown],
                  stream := ServerStream.Disconnected }) := by
  have h1 := C6_teardown_once srvD .Ack "late"
  have h2 := C6_teardown_once ⟨.Connected, true, true, [], [false], fun _ => ∅⟩ .Ack "late"
  exact ⟨h1.1 rfl, h1.2.2.2.2.1 rfl, h2.2.2.2.2.2 rfl rfl⟩

/-- C7: on any session whose table holds fewer than `2^31` kinds, every
`i32` handle outside the interned range `1..=len` — zero, negative, or
past-the-end — reverse-looks-up to `none` (the wrapping index lands at or
past the vector's length), and a `Variables` request carrying such a handle
is answered with a diagnostic `Notification` followed by an empty
`Variables` response, never a hard failure. -/
theorem C7_unknown_handle (s : State) (r : Int) (env : Env) (srv : Server)
    (hlen : s.vars.length < 2 ^ 31)
    (hlo : -(2 ^ 31) ≤ r) (hhi : r < 2 ^ 31)
    (hnot : r ≤ 0 ∨ (s.vars.length : Int) < r)
    (hconn : srv.stream = .Connected) (hio : srv.io = []) :
    s.get_variables r = none
    ∧ srv.handle_variables env s r
        = some ({ srv with wire := srv.wire
            ++ [.frame (.Notification "received unknown VariableRef in Variables request"),
                .frame (.Variables [])] }, s) := by
  have hidx : s.vars.length ≤ (i32ToUsize r + (U64 - 1)) % U64 := by
    unfold i32ToUsize U64
    omega
  have hnone : s.get_variables r = none := by
    unfold State.get_variables
    exact List.get?_eq_none.mpr hidx
  refine ⟨hnone, ?_⟩
  obtain ⟨stream, catchR, showInt, wire, io, hooked⟩ := srv
  simp only at hconn hio
  subst hconn
  subst hio
  simp [Server.handle_variables, hnone, Server.notify, Server.check_connected,
    Server.send_or_disconnect, Server.sendRaw]

/-- A one-entry session state for instantiations. -/
def s1 : State := ⟨cs0, [.Arguments 0], [(.Arguments 0, 1)]⟩

/-- Witness for C7: on a session with one interned kind, handle 0 (and so
any never-allocated handle) yields `none` and the request is answered with
the notification plus an empty list. -/
theorem C7_unknown_handle_witness :
    s1.get_variables 0 = none
    ∧ srvConn.handle_variables envEx s1 0
        = some ({ srvConn with wire := srvConn.wire
            ++ [.frame (.Notification "received unknown VariableRef in Variables request"),
                .frame (.Variables [])] }, s1) :=
  C7_unknown_handle s1 0 envEx srvConn (by decide) (by decide) (by decide)
    (Or.inl (by decide)) rfl rfl

/-- C8: a `BreakpointSet{instruction}` is answered `Failed` when the
proc/override cannot be resolved or when the external patcher cannot hook
the offset — with the trap state untouched in both failure cases — and
`Success{line}` when hooking succeeds, where `line` is exactly the
`line_for` resolution at the instruction's offset. -/
theorem C8_breakpoint_set (srv : Server) (env : Env) (instruction : InstructionRef)
    (hconn : srv.stream = .Connected) (hio : srv.io = []) :
    (env.find_override instruction.proc.path instruction.proc.override_id = none →
      srv.handle_breakpoint_set env instruction
        = some { srv with wire := srv.wire ++ [.frame (.BreakpointSet .Failed)] })
    ∧ (∀ p, env.find_override instruction.proc.path instruction.proc.override_id = some p →
        env.hook_ok p.id instruction.offset = false →
        srv.handle_breakpoint_set env instruction
          = some { srv with wire := srv.wire ++ [.frame (.BreakpointSet .Failed)] })
    ∧ (∀ p, env.find_override instruction.proc.path instruction.proc.override_id = some p →
        env.hook_ok p.id instruction.offset = true →
        srv.handle_breakpoint_set env instruction
          = some { srv with
                    hooked := hookInsert srv.hooked p.id instruction.offset,
                    wire := srv.wire ++ [.frame (.BreakpointSet (.Success
                      (get_line_number env instruction.proc instruction.offset)))] }) := by
  obtain ⟨stream, catchR, showInt, wire, io, hooked⟩ := srv
  simp only at hconn hio
  subst hconn
  subst hio
  refine ⟨?_, ?_, ?_⟩
  · intro hfind
    simp [Server.handle_breakpoint_set, hfind, Server.send_or_disconnect, Server.sendRaw]
  · intro p hfind hok
    simp [Server.handle_breakpoint_set, hfind, hook_instruction, hok,
      Server.send_or_disconnect, Server.sendRaw]
  · intro p hfind hok
    simp [Server.handle_breakpoint_set, hfind, hook_instruction, hok,
      Server.send_or_disconnect, Server.sendRaw]

/-- Witness for C8 on the concrete environment: an unresolvable path fails;
a patch failure (offset 200, above the oracle's bound) fails; offset 4 of
`/proc/foo` succeeds with the resolved line 12, installing the trap. -/
theorem C8_breakpoint_set_witness :
    srvConn.handle_breakpoint_set envEx ⟨⟨"/proc/none", 0⟩, 5⟩
      = some { srvConn with wire := srvConn.wire ++ [.frame (.BreakpointSet .Failed)] }
    ∧ srvConn.handle_breakpoint_set envEx ⟨⟨"/proc/foo", 0⟩, 200⟩
      = some { srvConn with wire := srvConn.wire ++ [.frame (.BreakpointSet .Failed)] }
    ∧ srvConn.handle_breakpoint_set envEx ⟨⟨"/proc/foo", 0⟩, 4⟩
      = some { srvConn with
                hooked := hookInsert srvConn.hooked procFoo.id 4,
                wire := srvConn.wire ++ [.frame (.BreakpointSet (.Success
                  (get_line_number envEx ⟨"/proc/foo", 0⟩ 4)))] }
    ∧ get_line_number envEx ⟨"/proc/foo", 0⟩ 4 = some 12 := by
  have h1 := C8_breakpoint_set srvConn envEx ⟨⟨"/proc/none", 0⟩, 5⟩ rfl rfl
  have h2 := C8_breakpoint_set srvConn envEx ⟨⟨"/proc/foo", 0⟩, 200⟩ rfl rfl
  have h3 := C8_breakpoint_set srvConn envEx ⟨⟨"/proc/foo", 0⟩, 4⟩ rfl rfl
  exact ⟨h1.1 (by decide), h2.2.1 procFoo (by decide) (by decide),
    h3.2.2 procFoo (by decide) (by decide), by decide⟩

theorem mem_foldl_erase (l : List Nat) (s : Finset Nat) (x : Nat) :
    x ∈ l.foldl Finset.erase s ↔ x ∈ s ∧ x ∉ l := by
  induction l generalizing s with
  | nil => simp
  | cons o rest ih =>
    simp only [List.foldl_cons, ih, Finset.mem_erase, List.mem_cons]
    constructor
    · rintro ⟨⟨hne, hs⟩, hnr⟩
      exact ⟨hs, fun h => h.elim hne hnr⟩
    · rintro ⟨hs, hn⟩
      exact ⟨⟨fun h => hn (Or.inl h), hs⟩, fun h => hn (Or.inr h)⟩

theorem mem_foldl_insert (l : List Nat) (s : Finset Nat) (x : Nat) :
    x ∈ l.foldl (fun acc o => insert o acc) s ↔ x ∈ s ∨ x ∈ l := by
  induction l generalizing s with
  | nil => simp
  | cons o rest ih =>
    simp only [List.foldl_cons, ih, Finset.mem_insert, List.mem_cons]
    tauto

theorem unhook_all_ok (p : Proc) (l : List Nat) :
    ∀ (srv : Server), l.Nodup → (∀ o ∈ l, o ∈ srv.hooked p.id) →
    ∃ srv', unhook_all p srv l = some srv'
      ∧ srv'.hooked p.id = l.foldl Finset.erase (srv.hooked p.id)
      ∧ (∀ q, q ≠ p.id → srv'.hooked q = srv.hooked q)
      ∧ srv'.wire = srv.wire ∧ srv'.stream = srv.stream ∧ srv'.io = srv.io := by
  induction l with
  | nil =>
    intro srv _ _
    exact ⟨srv, rfl, rfl, fun _ _ => rfl, rfl, rfl, rfl⟩
  | cons o rest ih =>
    intro srv hnd hmem
    have ho : o ∈ srv.hooked p.id := hmem o (List.mem_cons_self o rest)
    have hstep : unhook_instruction srv p o
        = .ok { srv with hooked := hookErase srv.hooked p.id o } := by
      unfold unhook_instruction
      rw [if_pos ho]
    have hnd' : rest.Nodup := (List.nodup_cons.mp hnd).2
    have hno : o ∉ rest := (List.nodup_cons.mp hnd).1
    have hmem' : ∀ o' ∈ rest, o' ∈ ({ srv with hooked := hookErase srv.hooked p.id o }
        : Server).hooked p.id := by
      intro o' ho'
      show o' ∈ hookErase srv.hooked p.id o p.id
      unfold hookErase
      rw [if_pos rfl]
      exact Finset.mem_erase.mpr ⟨fun h => hno (h ▸ ho'), hmem o' (List.mem_cons_of_mem o ho')⟩
    obtain ⟨srv', h1, h2, h3, h4, h5, h6⟩ :=
      ih { srv with hooked := hookErase srv.hooked p.id o } hnd' hmem'
    refine ⟨srv', ?_, ?_, ?_, h4, h5, h6⟩
    · unfold unhook_all
      rw [hstep]
      exact h1
    · rw [h2]
      show _ = List.foldl Finset.erase ((srv.hooked p.id).erase o) rest
      congr 1
      show hookErase srv.hooked p.id o p.id = (srv.hooked p.id).erase o
      unfold hookErase
      rw [if_pos rfl]
    · intro q hq
      rw [h3 q hq]
      show hookErase srv.hooked p.id o q = srv.hooked q
      unfold hookErase
      rw [if_neg hq]

theorem hook_all_ok (env : Env) (p : Proc) (l : List Nat) :
    ∀ (srv : Server), (∀ o ∈ l, env.hook_ok p.id o = true) →
    ∃ srv', hook_all env p srv l = some srv'
      ∧ srv'.hooked p.id = l.foldl (fun acc o => insert o acc) (srv.hooked p.id)
      ∧ (∀ q, q ≠ p.id → srv'.hooked q = srv.hooked q)
      ∧ srv'.wire = srv.wire ∧ srv'.stream = srv.stream ∧ srv'.io = srv.io := by
  induction l with
  | nil =>
    intro srv _
    exact ⟨srv, rfl, rfl, fun _ _ => rfl, rfl, rfl, rfl⟩
  | cons o rest ih =>
    intro srv hok
    have hstep : hook_instruction env srv p o
        = .ok { srv with hooked := hookInsert srv.hooked p.id o } := by
      unfold hook_instruction
      rw [if_pos (hok o (List.mem_cons_self o rest))]
    obtain ⟨srv', h1, h2, h3, h4, h5, h6⟩ :=
      ih { srv with hooked := hookInsert srv.hooked p.id o }
        (fun o' ho' => hok o' (List.mem_cons_of_mem o ho'))
    refine ⟨srv', ?_, ?_, ?_, h4, h5, h6⟩
    · unfold hook_all
      rw [hstep]
      exact h1
    · rw [h2]
      show _ = List.foldl (fun acc o => insert o acc) (insert o (srv.hooked p.id)) rest
      congr 1
      show hookInsert srv.hooked p.id o p.id = insert o (srv.hooked p.id)
      unfold hookInsert
      rw [if_pos rfl]
    · intro q hq
      rw [h3 q hq]
      show hookInsert srv.hooked p.id o q = srv.hooked q
      unfold hookInsert
      rw [if_neg hq]

/-- C9: disassembly is trap-transparent.  For a resolvable proc whose
installed traps the patcher can re-hook, `handle_disassemble` removes every
reported trap, renders the text against an empty trap set (so it equals the
disassembly with no traps installed), reinstalls exactly the removed traps,
and leaves the hooked-offset map — and the socket — exactly as before. -/
theorem C9_disassemble_trap_transparent (srv : Server) (env : Env) (path : String)
    (id : Nat) (p : Proc) (off? : Option Nat)
    (hp : env.find_override path id = some p)
    (hre : ∀ o ∈ srv.hooked p.id, env.hook_ok p.id o = true) :
    ∃ srv', srv.handle_disassemble env path id off?
        = some ("Dism for " ++ env.proc_repr p.id ++ "\n"
            ++ env.dism_text p.id off? ∅, srv')
      ∧ srv'.hooked = srv.hooked
      ∧ srv'.wire = srv.wire ∧ srv'.stream = srv.stream ∧ srv'.io = srv.io := by
  have hnd : ((srv.hooked p.id).sort (· ≤ ·)).Nodup := (srv.hooked p.id).sort_nodup _
  have hmem : ∀ o ∈ (srv.hooked p.id).sort (· ≤ ·), o ∈ srv.hooked p.id := by
    intro o ho
    exact (Finset.mem_sort _).mp ho
  obtain ⟨srv1, hu1, hu2, hu3, hu4, hu5, hu6⟩ :=
    unhook_all_ok p ((srv.hooked p.id).sort (· ≤ ·)) srv hnd hmem
  have hempty : srv1.hooked p.id = ∅ := by
    rw [hu2]
    apply Finset.eq_empty_iff_forall_not_mem.mpr
    intro x hx
    rw [mem_foldl_erase] at hx
    exact hx.2 ((Finset.mem_sort _).mpr hx.1)
  obtain ⟨srv2, hh1, hh2, hh3, hh4, hh5, hh6⟩ :=
    hook_all_ok env p ((srv.hooked p.id).sort (· ≤ ·)) srv1
      (fun o ho => hre o (hmem o ho))
  have hrestored : srv2.hooked = srv.hooked := by
    funext q
    by_cases hq : q = p.id
    · subst hq
      rw [hh2, hempty]
      apply Finset.ext
      intro x
      rw [mem_foldl_insert]
      simp only [Finset.not_mem_empty, false_or]
      exact Finset.mem_sort _
    · rw [hh3 q hq, hu3 q hq]
  refine ⟨srv2, ?_, hrestored, hh4.trans hu4, hh5.trans hu5, hh6.trans hu6⟩
  unfold Server.handle_disassemble
  rw [hp]
  simp only [hu1, hempty, hh1]

/-- A connected server with traps installed at offsets 2 and 4 of
`/proc/foo`. -/
def srvHooked : Server :=
  ⟨.Connected, true, true, [], [], fun q => if q = procFoo.id then {2, 4} else ∅⟩

/-- Witness for C9: disassembling `/proc/foo` with traps at offsets 2 and 4
yields the no-trap rendering and leaves both traps installed. -/
theorem C9_disassemble_trap_transparent_witness :
    ∃ srv', srvHooked.handle_disassemble envEx "/proc/foo" 0 (some 2)
        = some ("Dism for " ++ envEx.proc_repr procFoo.id ++ "\n"
            ++ envEx.dism_text procFoo.id (some 2) ∅, srv')
      ∧ srv'.hooked = srvHooked.hooked
      ∧ srv'.wire = srvHooked.wire ∧ srv'.stream = srvHooked.stream
      ∧ srv'.io = srvHooked.io :=
  C9_disassemble_trap_transparent srvHooked envEx "/proc/foo" 0 procFoo (some 2)
    (by decide) (by decide)

/-- Whether a request is the `Continue` the pause loop hijacks. -/
def isContinue : Request → Bool
  | .Continue _ => true
  | _ => false

theorem loop_step_some (env : Env) (srv : Server) (st : State) (q : Request)
    (l : List Request) (srv' : Server) (st? : Option State) (b : Bool)
    (hq : isContinue q = false)
    (hreq : srv.handle_request env (some st) q = some (srv', st?, b)) :
    Server.handle_breakpoint_loop env srv st (q :: l)
      = Server.handle_breakpoint_loop env srv' (st?.getD st) l := by
  cases q
  case Continue k => simp [isContinue] at hq
  all_goals simp only [Server.handle_breakpoint_loop, hreq]

theorem serviceAll_cons (env : Env) (srv : Server) (st : State) (q : Request)
    (l : List Request) (srv' : Server) (st? : Option State) (b : Bool)
    (hreq : srv.handle_request env (some st) q = some (srv', st?, b)) :
    serviceAll env srv st (q :: l) = serviceAll env srv' (st?.getD st) l := by
  simp only [serviceAll, hreq]

theorem loop_append (env : Env) (pre : List Request) :
    ∀ (srv : Server) (st : State) (kind : ContinueKind) (post : List Request)
      (srv₁ : Server) (st₁ : State),
    (∀ q ∈ pre, isContinue q = false) →
    serviceAll env srv st pre = some (srv₁, st₁) →
    srv₁.stream = .Connected → srv₁.io = [] →
    Server.handle_breakpoint_loop env srv st (pre ++ .Continue kind :: post)
      = some (kind, { srv₁ with wire := srv₁.wire ++ [.frame .Ack] }) := by
  induction pre with
  | nil =>
    intro srv st kind post srv₁ st₁ _ hserv hc hio
    simp only [serviceAll, Option.some_inj, Prod.mk.injEq] at hserv
    obtain ⟨h1, h2⟩ := hserv
    subst h1
    subst h2
    obtain ⟨stream, catchR, showInt, wire, io, hooked⟩ := srv
    simp only at hc hio
    subst hc
    subst hio
    simp [Server.handle_breakpoint_loop, Server.send_or_disconnect, Server.sendRaw]
  | cons q rest ih =>
    intro srv st kind post srv₁ st₁ hnc hserv hc hio
    have hq : isContinue q = false := hnc q (List.mem_cons_self q rest)
    rw [List.cons_append]
    cases hreq : srv.handle_request env (some st) q with
    | none =>
      rw [serviceAll, hreq] at hserv
      exact Option.noConfusion hserv
    | some t =>
      obtain ⟨srv', st?, b⟩ := t
      rw [loop_step_some env srv st q _ srv' st? b hq hreq]
      rw [serviceAll_cons env srv st q rest srv' st? b hreq] at hserv
      exact ih srv' (st?.getD st) kind post srv₁ st₁
        (fun q' hq' => hnc q' (List.mem_cons_of_mem q hq')) hserv hc hio

theorem check_connected_wire (srv : Server) : srv.check_connected.2.wire = srv.wire := by
  unfold Server.check_connected
  cases srv.stream with
  | Disconnected => rfl
  | Connected => rfl
  | Waiting pending => cases pending <;> rfl

theorem check_connected_of_connected (srv : Server) (h : srv.stream = .Connected) :
    srv.check_connected = (true, srv) := by
  unfold Server.check_connected
  rw [h]

/-- C3: the pause handler.  When the server is not connected it returns
plain `Continue` with nothing written; likewise when the reason is a runtime
error while runtime-catching is disabled.  Otherwise it writes the pause
notification and `BreakpointHit{reason}`, services the queued requests
before the first `Continue{kind}` against the fresh session
`State.new env.snapshot`, then acknowledges that `Continue` with `Ack` and
returns exactly its resume kind, leaving the requests after it
unprocessed. -/
theorem C3_handle_breakpoint (env : Env) (reason : BreakpointReason) :
    (∀ (srv : Server) (reqs : List Request), srv.check_connected.1 = false →
      srv.handle_breakpoint env reason reqs = some (.Continue, srv.check_connected.2)
        ∧ srv.check_connected.2.wire = srv.wire)
    ∧ (∀ (srv : Server) (reqs : List Request) (msg : String), srv.stream = .Connected →
        srv.should_catch_runtimes = false →
        srv.handle_breakpoint env (.Runtime msg) reqs = some (.Continue, srv))
    ∧ (∀ (srv : Server) (pre : List Request) (kind : ContinueKind) (post : List Request)
        (srv₁ : Server) (st₁ : State),
        srv.stream = .Connected → srv.io = [] →
        (∀ m, reason = .Runtime m → srv.should_catch_runtimes = true) →
        (∀ q ∈ pre, isContinue q = false) →
        serviceAll env
          { srv with wire := srv.wire
              ++ [.frame (.Notification
                    ("Pausing execution (reason: " ++ reasonText reason ++ ")")),
                  .frame (.BreakpointHit reason)] }
          (State.new env.snapshot) pre = some (srv₁, st₁) →
        srv₁.stream = .Connected → srv₁.io = [] →
        srv.handle_breakpoint env reason (pre ++ .Continue kind :: post)
          = some (kind, { srv₁ with wire := srv₁.wire ++ [.frame .Ack] })) := by
  refine ⟨?_, ?_, ?_⟩
  · intro srv reqs hc
    cases hcc : srv.check_connected with
    | mk b srv' =>
      rw [hcc] at hc
      simp only at hc
      subst hc
      constructor
      · unfold Server.handle_breakpoint
        rw [hcc]
      · have := check_connected_wire srv
        rw [hcc] at this
        exact this
  · intro srv reqs msg hconn hcatch
    unfold Server.handle_breakpoint
    rw [check_connected_of_connected srv hconn]
    simp [hcatch, isRuntime]
  · intro srv pre kind post srv₁ st₁ hconn hio hcatch hnc hserv hc1 hio1
    obtain ⟨stream, catchR, showInt, wire, io, hooked⟩ := srv
    simp only at hconn hio hcatch hserv
    subst hconn
    subst hio
    have hcond : (isRuntime reason && !catchR) = false := by
      clear hserv
      revert hcatch
      cases reason with
      | Runtime m =>
        intro hcatch
        rw [hcatch m rfl]
        rfl
      | Breakpoint => intro _; rfl
      | Step => intro _; rfl
      | Pause => intro _; rfl
    unfold Server.handle_breakpoint
    simp only [Server.check_connected, hcond, Bool.false_eq_true, if_false,
      Server.notify, Server.send_or_disconnect, Server.sendRaw, List.append_assoc,
      List.cons_append, List.nil_append]
    exact loop_append env pre _ (State.new env.snapshot) kind post srv₁ st₁ hnc hserv hc1 hio1

/-- The server as it stands after the pause notification, the
`BreakpointHit`, and servicing one `Stacks` request of the witness run. -/
def srvW1 : Server :=
  { srvConn with wire :=
      [.frame (.Notification "Pausing execution (reason: Breakpoint)"),
       .frame (.BreakpointHit .Breakpoint),
       .frame (.Stacks [⟨0, "/proc/f"⟩, ⟨1, "/proc/f"⟩, ⟨2, "/proc/f"⟩])] }

/-- Witness for C3: a trap fire on the connected server, with a `Stacks`
request queued before `Continue{StepOver}` and a `Pause` request after it,
emits the notification, `BreakpointHit`, the `Stacks` answer and the `Ack`,
and returns `StepOver` to the VM without touching the request after the
`Continue`. -/
theorem C3_handle_breakpoint_witness :
    srvConn.handle_breakpoint envEx .Breakpoint
        ([Request.Stacks] ++ .Continue .StepOver :: [Request.Pause])
      = some (.StepOver, { srvW1 with wire := srvW1.wire ++ [.frame .Ack] }) :=
  (C3_handle_breakpoint envEx .Breakpoint).2.2 srvConn [Request.Stacks] .StepOver
    [Request.Pause] srvW1 (State.new csEx) rfl rfl (fun m h => nomatch h)
    (by decide) rfl rfl rfl

/-- The C10 session invariant: every interned `Internals` kind carries a
frame index that resolves in the session's snapshot. -/
def InternalsOK (s : State) : Prop :=
  ∀ f, Variables.Internals f ∈ s.vars → (get_stack_frame s.snapshot f).isSome

/-- One step of session-state evolution that keeps the snapshot and the C10
invariant. -/
def Preserves (s t : State) : Prop :=
  t.snapshot = s.snapshot ∧ (InternalsOK s → InternalsOK t)

theorem preserves_refl (s : State) : Preserves s s := ⟨rfl, id⟩

theorem preserves_trans {s t u : State} (h1 : Preserves s t) (h2 : Preserves t u) :
    Preserves s u :=
  ⟨h2.1.trans h1.1, fun h => h2.2 (h1.2 h)⟩

theorem get_ref_snapshot (s : State) (k : Variables) :
    (s.get_ref k).2.snapshot = s.snapshot := by
  unfold State.get_ref
  cases lookupRef s.variables_to_refs k <;> rfl

theorem get_ref_mem {s : State} {k k' : Variables} (h : k' ∈ (s.get_ref k).2.vars) :
    k' ∈ s.vars ∨ k' = k := by
  unfold State.get_ref at h
  cases hL : lookupRef s.variables_to_refs k with
  | some r =>
    rw [hL] at h
    exact Or.inl h
  | none =>
    rw [hL] at h
    have h' : k' ∈ s.vars ++ [k] := h
    rcases List.mem_append.mp h' with h1 | h2
    · exact Or.inl h1
    · exact Or.inr (List.mem_singleton.mp h2)

theorem preserves_get_ref (s : State) (k : Variables)
    (hk : ∀ f, k = .Internals f → (get_stack_frame s.snapshot f).isSome) :
    Preserves s (s.get_ref k).2 := by
  refine ⟨get_ref_snapshot s k, fun hOK f hf => ?_⟩
  rw [get_ref_snapshot s k]
  rcases get_ref_mem hf with h1 | h2
  · exact hOK f h1
  · exact hk f h2.symm

theorem preserves_value_to_variable (env : Env) (st : State) (name : String)
    (value : Value) : Preserves st (value_to_variable env st name value).2 := by
  unfold value_to_variable
  by_cases hl : env.is_list value = true
  · rw [if_pos hl]
    exact preserves_get_ref st _ (fun f h => nomatch h)
  · rw [if_neg hl]
    by_cases ho : is_object env value = true
    · rw [if_pos ho]
      exact preserves_get_ref st _ (fun f h => nomatch h)
    · rw [if_neg ho]
      exact preserves_refl st

theorem preserves_list_loop (env : Env) (list : DMList) (idxs : List Nat) :
    ∀ (st : State) (acc : List Variable),
      Preserves st (list_loop env list st acc idxs).2 := by
  induction idxs with
  | nil =>
    intro st acc
    exact preserves_refl st
  | cons i rest ih =>
    intro st acc
    unfold list_loop
    split
    · exact preserves_refl st
    · split
      · split
        · split
          · exact preserves_refl st
          · split
            · exact preserves_refl st
            · refine preserves_trans (preserves_get_ref st _ ?_) (ih _ _)
              intro f h
              simp at h
        · exact preserves_trans (preserves_value_to_variable env st _ _) (ih _ _)
      · exact preserves_trans (preserves_value_to_variable env st _ _) (ih _ _)

theorem preserves_list_to_variables (env : Env) (st : State) (value : Value) :
    Preserves st (list_to_variables env st value).2 := by
  unfold list_to_variables
  cases env.from_value value with
  | error e => exact preserves_refl st
  | ok list => exact preserves_list_loop env list _ st []

theorem preserves_object_loop (env : Env) (value : Value) (fields : DMList)
    (idxs : List Nat) :
    ∀ (st : State) (top normal : List Variable),
      Preserves st (object_loop env value fields st top normal idxs).2 := by
  induction idxs with
  | nil =>
    intro st top normal
    exact preserves_refl st
  | cons i rest ih =>
    intro st top normal
    unfold object_loop
    split
    · exact preserves_refl st
    · split
      · exact preserves_refl st
      · split
        · exact preserves_refl st
        · dsimp only
          split
          · exact preserves_trans
              (preserves_value_to_variable env st _ _) (ih _ _ _)
          · exact preserves_trans
              (preserves_value_to_variable env st _ _) (ih _ _ _)

theorem preserves_object_to_variables (env : Env) (st : State) (value : Value) :
    Preserves st (object_to_variables env st value).2 := by
  unfold object_to_variables
  split
  · exact preserves_refl st
  · split
    · exact preserves_refl st
    · rename_i fields hfrom
      split
      · rename_i e st2 heq
        have h := preserves_object_loop env value fields (List.range' 1 fields.len) st [] []
        rw [heq] at h
        exact h
      · rename_i tn st2 heq
        have h := preserves_object_loop env value fields (List.range' 1 fields.len) st [] []
        rw [heq] at h
        exact h

theorem preserves_args_loop (env : Env) (args : List (Option String × Value)) :
    ∀ (st : State) (cnt : Nat) (acc : List Variable),
      Preserves st (args_loop env st cnt acc args).2 := by
  induction args with
  | nil =>
    intro st cnt acc
    exact preserves_refl st
  | cons a rest ih =>
    intro st cnt acc
    obtain ⟨name?, value⟩ := a
    unfold args_loop
    cases name? with
    | some name => exact preserves_trans (preserves_value_to_variable env st name value) (ih _ _ _)
    | none => exact preserves_trans (preserves_value_to_variable env st _ value) (ih _ _ _)

theorem preserves_locals_loop (env : Env) (locals : List (String × Value)) :
    ∀ (st : State) (acc : List Variable),
      Preserves st (locals_loop env st acc locals).2 := by
  induction locals with
  | nil =>
    intro st acc
    exact preserves_refl st
  | cons a rest ih =>
    intro st acc
    obtain ⟨name, value⟩ := a
    unfold locals_loop
    exact preserves_trans (preserves_value_to_variable env st name value) (ih _ _)

theorem preserves_stack_loop (env : Env) (values : List Value) :
    ∀ (st : State) (i : Nat) (acc : List Variable),
      Preserves st (stack_loop env st i acc values).2 := by
  induction values with
  | nil =>
    intro st i acc
    exact preserves_refl st
  | cons v rest ih =>
    intro st i acc
    unfold stack_loop
    exact preserves_trans (preserves_value_to_variable env st _ v) (ih _ _ _)

theorem value_to_variable_name (env : Env) (st : State) (n : String) (value : Value) :
    (value_to_variable env st n value).1.name = n := by
  unfold value_to_variable
  split
  · rfl
  · rfl

theorem preserves_get_args {srv : Server} {env : Env} {st : State} {fi : Nat}
    {res : List Variable × Server × State}
    (h : srv.get_args env st fi = some res) : Preserves st res.2.2 := by
  unfold Server.get_args at h
  split at h
  · rename_i frame hframe
    dsimp only at h
    have P1 := preserves_value_to_variable env st "src" frame.src
    have P2 := preserves_value_to_variable env
      (value_to_variable env st "src" frame.src).2 "usr" frame.usr
    have P3 := preserves_args_loop env frame.args
      (value_to_variable env (value_to_variable env st "src" frame.src).2
        "usr" frame.usr).2 0 []
    have P := preserves_trans P1 (preserves_trans P2 P3)
    split at h
    · injection h with h'
      subst h'
      refine preserves_trans P (preserves_get_ref _ _ ?_)
      intro f hf
      injection hf with hfe
      subst hfe
      rw [P.1, hframe]
      rfl
    · injection h with h'
      subst h'
      exact P
  · split at h
    · injection h with h'
      subst h'
      exact preserves_refl st
    · exact Option.noConfusion h

theorem preserves_get_locals {srv : Server} {env : Env} {st : State} {fi : Nat}
    {res : List Variable × Server × State}
    (h : srv.get_locals env st fi = some res) : Preserves st res.2.2 := by
  unfold Server.get_locals at h
  split at h
  · rename_i frame hframe
    dsimp only at h
    injection h with h'
    subst h'
    exact preserves_trans (preserves_value_to_variable env st "." frame.dot)
      (preserves_locals_loop env frame.locals _ [])
  · split at h
    · injection h with h'
      subst h'
      exact preserves_refl st
    · exact Option.noConfusion h

theorem preserves_get_vm_stack {srv : Server} {env : Env} {st : State} {fi : Nat}
    {res : List Variable × Server × State}
    (h : srv.get_vm_stack env st fi = some res) : Preserves st res.2.2 := by
  unfold Server.get_vm_stack at h
  split at h
  · rename_i frame hframe
    dsimp only at h
    injection h with h'
    subst h'
    exact preserves_stack_loop env frame.stack st 0 []
  · split at h
    · injection h with h'
      subst h'
      exact preserves_refl st
    · exact Option.noConfusion h

theorem preserves_handle_scopes {srv : Server} {env : Env} {st : State} {fid : Nat}
    {srv' : Server} {st' : State}
    (h : srv.handle_scopes env st fid = some (srv', st')) : Preserves st st' := by
  unfold Server.handle_scopes at h
  dsimp only at h
  split at h
  · rename_i srv2 hsend
    injection h with h'
    injection h' with h1 h2
    subst h2
    refine preserves_trans (preserves_get_ref st _ ?_)
      (preserves_trans (preserves_get_ref _ _ ?_) (preserves_get_ref _ _ ?_))
    all_goals intro f hf
    all_goals simp at hf
  · exact Option.noConfusion h

theorem preserves_handle_variables {srv : Server} {env : Env} {st : State} {r : Int}
    {srv' : Server} {st' : State}
    (h : srv.handle_variables env st r = some (srv', st')) : Preserves st st' := by
  unfold Server.handle_variables at h
  split at h
  · split at h
    · rename_i frame
      split at h
      · rename_i vs srv2 st2 hres
        split at h
        · injection h with h'
          injection h' with h1 h2
          subst h2
          exact preserves_get_args hres
        · exact Option.noConfusion h
      · exact Option.noConfusion h
    · rename_i frame
      split at h
      · rename_i vs srv2 st2 hres
        split at h
        · injection h with h'
          injection h' with h1 h2
          subst h2
          exact preserves_get_locals hres
        · exact Option.noConfusion h
      · exact Option.noConfusion h
    · rename_i tag data hkind
      split at h
      · rename_i vs st2 hres
        split at h
        · injection h with h'
          injection h' with h1 h2
          subst h2
          have hp := preserves_object_to_variables env st ⟨tag, data⟩
          rw [hres] at hp
          exact hp
        · exact Option.noConfusion h
      · rename_i e st2 hres
        split at h
        · split at h
          · injection h with h'
            injection h' with h1 h2
            subst h2
            have hp := preserves_object_to_variables env st ⟨tag, data⟩
            rw [hres] at hp
            exact hp
          · exact Option.noConfusion h
        · exact Option.noConfusion h
    · rename_i tag data hkind
      split at h
      · rename_i vs st2 hres
        split at h
        · injection h with h'
          injection h' with h1 h2
          subst h2
          have hp := preserves_list_to_variables env st ⟨tag, data⟩
          rw [hres] at hp
          exact hp
        · exact Option.noConfusion h
      · rename_i e st2 hres
        split at h
        · split at h
          · injection h with h'
            injection h' with h1 h2
            subst h2
            have hp := preserves_list_to_variables env st ⟨tag, data⟩
            rw [hres] at hp
            exact hp
          · exact Option.noConfusion h
        · exact Option.noConfusion h
    · rename_i kt kd vt vd hkind
      dsimp only at h
      split at h
      · injection h with h'
        injection h' with h1 h2
        subst h2
        exact preserves_trans (preserves_value_to_variable env st "key" ⟨kt, kd⟩)
          (preserves_value_to_variable env _ "value" ⟨vt, vd⟩)
      · exact Option.noConfusion h
    · rename_i frame hkind
      dsimp only at h
      split at h
      · rename_i sd hsd
        split at h
        · injection h with h'
          injection h' with h1 h2
          subst h2
          exact preserves_trans
            (preserves_get_ref st (.Stack frame) (fun f hf => nomatch hf))
            (preserves_value_to_variable env _ "Cache" sd.cache)
        · exact Option.noConfusion h
      · exact Option.noConfusion h
    · rename_i frame
      split at h
      · rename_i vs srv2 st2 hres
        split at h
        · injection h with h'
          injection h' with h1 h2
          subst h2
          exact preserves_get_vm_stack hres
        · exact Option.noConfusion h
      · exact Option.noConfusion h
  · split at h
    · split at h
      · injection h with h'
        injection h' with h1 h2
        subst h2
        exact preserves_refl st
      · exact Option.noConfusion h
    · exact Option.noConfusion h

theorem preserves_handle_request {srv : Server} {env : Env} {s : State} {req : Request}
    {srv' : Server} {st? : Option State} {b : Bool}
    (h : srv.handle_request env (some s) req = some (srv', st?, b)) :
    Preserves s (st?.getD s) := by
  cases req with
  | Disconnect => exact Option.noConfusion h
  | CatchRuntimes flag =>
    simp only [Server.handle_request] at h
    injection h with h'
    injection h' with h1 h23
    injection h23 with h2 h3
    subst h2
    exact preserves_refl s
  | BreakpointSet instruction =>
    simp only [Server.handle_request] at h
    split at h
    · injection h with h'
      injection h' with h1 h23
      injection h23 with h2 h3
      subst h2
      exact preserves_refl s
    · exact Option.noConfusion h
  | BreakpointUnset instruction =>
    simp only [Server.handle_request] at h
    split at h
    · injection h with h'
      injection h' with h1 h23
      injection h23 with h2 h3
      subst h2
      exact preserves_refl s
    · exact Option.noConfusion h
  | Stacks =>
    simp only [Server.handle_request] at h
    split at h
    · injection h with h'
      injection h' with h1 h23
      injection h23 with h2 h3
      subst h2
      exact preserves_refl s
    · exact Option.noConfusion h
  | Scopes fid =>
    simp only [Server.handle_request] at h
    split at h
    · rename_i srv2 st2 hsc
      injection h with h'
      injection h' with h1 h23
      injection h23 with h2 h3
      subst h2
      exact preserves_handle_scopes hsc
    · exact Option.noConfusion h
  | Variables vars =>
    simp only [Server.handle_request] at h
    split at h
    · rename_i srv2 st2 hsc
      injection h with h'
      injection h' with h1 h23
      injection h23 with h2 h3
      subst h2
      exact preserves_handle_variables hsc
    · exact Option.noConfusion h
  | Eval fid command =>
    simp only [Server.handle_request] at h
    split at h
    · injection h with h'
      injection h' with h1 h23
      injection h23 with h2 h3
      subst h2
      exact preserves_refl s
    · exact Option.noConfusion h
  | StackFrames stack_id start_frame count =>
    simp only [Server.handle_request] at h
    split at h
    · injection h with h'
      injection h' with h1 h23
      injection h23 with h2 h3
      subst h2
      exact preserves_refl s
    · exact Option.noConfusion h
  | LineNumber proc offset =>
    simp only [Server.handle_request] at h
    split at h
    · injection h with h'
      injection h' with h1 h23
      injection h23 with h2 h3
      subst h2
      exact preserves_refl s
    · exact Option.noConfusion h
  | Offset proc line =>
    simp only [Server.handle_request] at h
    split at h
    · injection h with h'
      injection h' with h1 h23
      injection h23 with h2 h3
      subst h2
      exact preserves_refl s
    · exact Option.noConfusion h
  | Pause =>
    simp only [Server.handle_request] at h
    split at h
    · injection h with h'
      injection h' with h1 h23
      injection h23 with h2 h3
      subst h2
      exact preserves_refl s
    · exact Option.noConfusion h
  | StdDef =>
    simp only [Server.handle_request] at h
    split at h
    · injection h with h'
      injection h' with h1 h23
      injection h23 with h2 h3
      subst h2
      exact preserves_refl s
    · exact Option.noConfusion h
  | CurrentInstruction fid =>
    simp only [Server.handle_request] at h
    split at h
    · injection h with h'
      injection h' with h1 h23
      injection h23 with h2 h3
      subst h2
      exact preserves_refl s
    · exact Option.noConfusion h
  | Configured =>
    simp only [Server.handle_request] at h
    split at h
    · injection h with h'
      injection h' with h1 h23
      injection h23 with h2 h3
      subst h2
      exact preserves_refl s
    · exact Option.noConfusion h
  | Continue kind =>
    simp only [Server.handle_request] at h
    split at h
    · injection h with h'
      injection h' with h1 h23
      injection h23 with h2 h3
      subst h2
      exact preserves_refl s
    · exact Option.noConfusion h

/-- Session states reachable from the fresh snapshot of one pause by
servicing any sequence of client requests through the dispatcher. -/
inductive Reach (cs : CallStacks) : State → Prop
  | base : Reach cs (State.new cs)
  | step {env : Env} {srv srv' : Server} {s : State} {req : Request}
      {st? : Option State} {b : Bool} :
      Reach cs s →
      Server.handle_request srv env (some s) req = some (srv', st?, b) →
      Reach cs (st?.getD s)

theorem reach_invariant {cs : CallStacks} {s : State} (h : Reach cs s) :
    s.snapshot = cs ∧ InternalsOK s := by
  induction h with
  | base =>
    refine ⟨rfl, ?_⟩
    intro f hf
    cases hf
  | step hr hreq ih =>
    have hp := preserves_handle_request hreq
    exact ⟨hp.1.trans ih.1, hp.2 ih.2⟩

/-- C10: within one session, every `Internals` kind interned in the variable
reference table (reachable states only intern it in `get_args`, after the
frame lookup succeeded) carries a frame index that `get_stack_frame`
resolves in the session snapshot, so expanding an `Internals` reference in
`handle_variables` cannot hit the `unwrap` panic: it answers with exactly
the two children `Stack` (a nested reference) and `Cache`. -/
theorem C10_internals_expansion (cs : CallStacks) (s : State) (hreach : Reach cs s)
    (r : Int) (f : Nat) (hr : s.get_variables r = some (.Internals f))
    (env : Env) (srv : Server) (hconn : srv.stream = .Connected) (hio : srv.io = []) :
    (get_stack_frame s.snapshot f).isSome
    ∧ ∃ (srv' : Server) (st' : State) (stack_ref : Int) (cacheVar : Variable),
        srv.handle_variables env s r = some (srv', st')
        ∧ srv'.wire = srv.wire
            ++ [.frame (.Variables [⟨"Stack", "", some stack_ref⟩, cacheVar])]
        ∧ cacheVar.name = "Cache" := by
  have hmem : Variables.Internals f ∈ s.vars := by
    unfold State.get_variables at hr
    exact List.get?_mem hr
  have hsome : (get_stack_frame s.snapshot f).isSome := (reach_invariant hreach).2 f hmem
  refine ⟨hsome, ?_⟩
  obtain ⟨sd, hsd⟩ := Option.isSome_iff_exists.mp hsome
  have hsd2 : get_stack_frame (s.get_ref (.Stack f)).2.snapshot f = some sd := by
    rw [get_ref_snapshot]
    exact hsd
  obtain ⟨stream, catchR, showInt, wire, io, hooked⟩ := srv
  simp only at hconn hio
  subst hconn
  subst hio
  refine ⟨⟨.Connected, catchR, showInt,
      wire ++ [.frame (.Variables [⟨"Stack", "", some (s.get_ref (.Stack f)).1⟩,
        (value_to_variable env (s.get_ref (.Stack f)).2 "Cache" sd.cache).1])],
      [], hooked⟩,
    (value_to_variable env (s.get_ref (.Stack f)).2 "Cache" sd.cache).2,
    (s.get_ref (.Stack f)).1,
    (value_to_variable env (s.get_ref (.Stack f)).2 "Cache" sd.cache).1,
    ?_, rfl, value_to_variable_name env _ "Cache" sd.cache⟩
  unfold Server.handle_variables
  rw [hr]
  simp only [hsd2, Server.send_or_disconnect, Server.sendRaw]

/-- The session state after servicing `Scopes{0}` on a fresh pause over
`csEx`. -/
def sW1 : State :=
  ⟨csEx, [.Arguments 0, .Locals 0, .ObjectVars ValueTag.GlobalVars 0],
   [(.ObjectVars ValueTag.GlobalVars 0, 3), (.Locals 0, 2), (.Arguments 0, 1)]⟩

/-- The session state after additionally servicing `Variables{1}` (the
`Arguments{0}` scope), which interns `Internals{0}` as handle 4. -/
def sW2 : State :=
  ⟨csEx, [.Arguments 0, .Locals 0, .ObjectVars ValueTag.GlobalVars 0, .Internals 0],
   [(.Internals 0, 4), (.ObjectVars ValueTag.GlobalVars 0, 3), (.Locals 0, 2),
    (.Arguments 0, 1)]⟩

theorem stepW1 : Server.handle_request srvConn envEx (some (State.new csEx)) (.Scopes 0)
    = some ({ srvConn with wire := [.frame (.Scopes (some 1) (some 2) (some 3))] },
        some sW1, false) := rfl

theorem stepW2 : Server.handle_request srvConn envEx (some sW1) (.Variables 1)
    = some ({ srvConn with wire := [.frame (.Variables
        [⟨"src", "val0", none⟩, ⟨"usr", "val0", none⟩,
         ⟨"BYOND Internals", "", some 4⟩])] }, some sW2, false) := rfl

theorem reachW2 : Reach csEx sW2 :=
  Reach.step (Reach.step Reach.base stepW1) stepW2

/-- Witness for C10: in the reachable session `sW2` (fresh pause, then
`Scopes{0}`, then `Variables{1}` which interned `Internals{0}` as handle 4),
expanding handle 4 finds its frame and answers with the `Stack`/`Cache`
pair. -/
theorem C10_internals_expansion_witness :
    (get_stack_frame sW2.snapshot 0).isSome
    ∧ ∃ (srv' : Server) (st' : State) (stack_ref : Int) (cacheVar : Variable),
        srvConn.handle_variables envEx sW2 4 = some (srv', st')
        ∧ srv'.wire = srvConn.wire
            ++ [.frame (.Variables [⟨"Stack", "", some stack_ref⟩, cacheVar])]
        ∧ cacheVar.name = "Cache" :=
  C10_internals_expansion csEx sW2 reachW2 4 0 rfl envEx srvConn rfl rfl
